import Mathlib

/-!
Verification development for the Phoenix JSON-to-SQL synchronization engine
(`phoenix_importer.py`).  The Python functions `analyze_dataframe`,
`generate_sql_script` and `process_data` are shallowly embedded below as
executable Lean definitions; the surrounding pandas / SQLAlchemy / PostgreSQL
behavior that those functions rely on (DataFrame construction, column dtype
inference, `to_sql`, `ON CONFLICT` execution) is modelled explicitly so that
the live path and the rendered-script path can be compared semantically.
-/

namespace Phoenix

/-- The single-quote character, used when assembling SQL literals and log
messages that quote identifiers. -/
def sq : String := String.singleton (Char.ofNat 39)

/-- Wrap an identifier in double quotes, as the Python source does with
escaped double-quote f-strings. -/
def dq (s : String) : String := "\"" ++ s ++ "\""

/-- A JSON scalar or nested value as it appears in one record cell.
Nested objects and arrays are represented by their `json.dumps`
serialization: the engine only ever inspects their tag (`isinstance(x,
(dict, list))`) and serializes them, so the dump string is a faithful
stand-in for the payload.  `vnull` stands both for an explicit JSON null and
for the NaN that pandas inserts for a field missing from a record. -/
inductive Value where
  | vnull
  | vbool (b : Bool)
  | vint (n : Int)
  | vfloat (q : Rat)
  | vstr (s : String)
  | vobj (dump : String)
  | varr (dump : String)
  deriving DecidableEq, Repr

/-- One input record: an ordered field-name to value mapping (a Python dict,
so field names are unique within one record). -/
abbrev Record := List (String × Value)

/-- `rec.get(c)`: the value of field `c`, `vnull` when absent (Python
returns None, which renders and stores as NULL). -/
def getField (r : Record) (c : String) : Value := (r.lookup c).getD Value.vnull

/-- Accumulate the union of field names across records in first-seen order;
this is the column order `pd.DataFrame(list_of_dicts)` produces. -/
def addKeys (acc : List String) (r : Record) : List String :=
  r.foldl (fun a kv => if a.contains kv.1 then a else a ++ [kv.1]) acc

/-- All field names appearing in a record list, in first-seen order. -/
def recordKeys (rs : List Record) : List String := rs.foldl addKeys []

/-- The pandas DataFrame built by `pd.DataFrame(data)`: a fixed column list
plus rows aligned with it (missing fields filled with `vnull`). -/
structure DataFrame where
  columns : List String
  rows : List (List Value)
  deriving DecidableEq, Repr

/-- `pd.DataFrame(records)`. -/
def mkDataFrame (rs : List Record) : DataFrame :=
  let cols := recordKeys rs
  { columns := cols, rows := rs.map (fun r => cols.map (fun c => getField r c)) }

/-- The cell of an aligned row under a given column list. -/
def cellVal (cols : List String) (c : String) (row : List Value) : Value :=
  ((cols.zip row).lookup c).getD Value.vnull

/-- `df.to_dict(orient="records")`: each row as a dict over all columns. -/
def dfRecords (df : DataFrame) : List Record :=
  df.rows.map (fun row => df.columns.zip row)

/-- All values of one column (including nulls), `df[col].tolist()` order. -/
def colValues (df : DataFrame) (c : String) : List Value :=
  df.rows.map (fun row => cellVal df.columns c row)

def Value.isInt : Value → Bool
  | .vint _ => true
  | _ => false

def Value.isFloat : Value → Bool
  | .vfloat _ => true
  | _ => false

def Value.isBool : Value → Bool
  | .vbool _ => true
  | _ => false

def Value.isNull : Value → Bool
  | .vnull => true
  | _ => false

/-- `isinstance(x, (dict, list))`. -/
def Value.isStructured : Value → Bool
  | .vobj _ => true
  | .varr _ => true
  | _ => false

/-- The pandas dtype a column receives when a DataFrame is built from a list
of records: `int64` when every cell is an integer; `float64` when every cell
is numeric or null with at least one numeric cell and at least one
non-integer cell (so integers mixed with nulls or floats are promoted);
`bool` when every cell is a boolean; `object` otherwise (strings, nested
structures, all-null columns, or mixed tags). -/
inductive PandasDtype where
  | int64
  | float64
  | boolDtype
  | objectDtype
  deriving DecidableEq, Repr

/-- Model of the pandas column-dtype inference described above. -/
def colDtype (vs : List Value) : PandasDtype :=
  if !vs.isEmpty && vs.all Value.isInt then .int64
  else if vs.any (fun v => v.isInt || v.isFloat) &&
          vs.all (fun v => v.isInt || v.isFloat || v.isNull) then .float64
  else if !vs.isEmpty && vs.all Value.isBool then .boolDtype
  else .objectDtype

/-- The SQLAlchemy types the importer assigns to columns (the subset that
appears in the source: JSONB, BigInteger, Integer, Float, Boolean, String). -/
inductive SqlAlchemyType where
  | JSONB
  | BigInteger
  | Integer
  | Float
  | Boolean
  | String
  deriving DecidableEq, Repr

/-- `df[col].dropna()`: the non-null values of a column. -/
def pdDropna (vs : List Value) : List Value := vs.filter (fun v => !v.isNull)

/-- The per-column body of `analyze_dataframe`: sample the first 100
non-null values; JSONB when any sampled value is a dict or list; otherwise
classify by the pandas dtype of the full column. -/
def inferColumnType (vs : List Value) : SqlAlchemyType :=
  let sample := (pdDropna vs).take 100
  if sample.any Value.isStructured then .JSONB
  else
    match colDtype vs with
    | .int64 => .BigInteger
    | .float64 => .Float
    | .boolDtype => .Boolean
    | .objectDtype => .String

/-- `analyze_dataframe(df)`: the dtype map, one entry per column in column
order. -/
def analyze_dataframe (df : DataFrame) : List (String × SqlAlchemyType) :=
  df.columns.map (fun c => (c, inferColumnType (colValues df c)))

/-- `df.drop_duplicates(subset=[key], keep="last")` over an arbitrary keyed
list: a row is kept exactly when no later row carries the same key, so the
last occurrence of every key survives in its original position. -/
def dedupLastBy (k : α → Value) : List α → List α
  | [] => []
  | r :: rs => if rs.any (fun s => k s == k r) then dedupLastBy k rs else r :: dedupLastBy k rs

/-- `Series.unique()`: distinct values in first-occurrence order. -/
def dedupKeepFirst (l : List Value) : List Value :=
  l.foldl (fun acc v => if acc.contains v then acc else acc ++ [v]) []

/-- `s.replace(single-quote, two single-quotes)`. -/
def escapeSq (s : String) : String := s.replace sq (sq ++ sq)

/-- The `to_sql_literal` helper of `generate_sql_script`: NULL for nulls and
NaN, quoted-and-escaped dumps for dicts and lists, quoted-and-escaped text
for strings, TRUE and FALSE for booleans, and `str(val)` for numbers. -/
def to_sql_literal : Value → String
  | .vnull => "NULL"
  | .vobj d => sq ++ escapeSq d ++ sq
  | .varr d => sq ++ escapeSq d ++ sq
  | .vstr s => sq ++ escapeSq s ++ sq
  | .vbool b => if b then "TRUE" else "FALSE"
  | .vint n => toString n
  | .vfloat q => toString q

/-- Split a list into contiguous chunks of at most `n` elements
(`records[i:i+batch_size]` loops), by structural recursion so the kernel can
evaluate it. -/
def chunksGo (n : Nat) : List α → List α → List (List α)
  | [], acc => if acc.isEmpty then [] else [acc.reverse]
  | x :: xs, acc =>
    let acc2 := x :: acc
    if n ≤ acc2.length then acc2.reverse :: chunksGo n xs [] else chunksGo n xs acc2

/-- The batches `records[0:n], records[n:2n], ...`. -/
def chunks (n : Nat) (l : List α) : List (List α) := chunksGo n l []

/-- The `ON CONFLICT` clause attached to a rendered or live INSERT:
none, `DO UPDATE SET` on the listed columns, or `DO NOTHING`. -/
inductive ConflictClause where
  | noClause
  | doUpdate (pk : String) (setCols : List String)
  | doNothing (pk : String)
  deriving DecidableEq, Repr

/-- A SQL statement of the generated script, in abstract form.  `renderStmt`
below turns each into exactly the text `generate_sql_script` emits, and the
replay semantics interprets the same statements against a table state. -/
inductive ScriptStmt where
  | dropTable (table : String)
  | createTable (table : String) (cols : List (String × SqlAlchemyType))
      (pk : Option String) (serialId : Bool)
  | insertValues (table : String) (cols : List String)
      (rows : List (List Value)) (conflict : ConflictClause)
  deriving DecidableEq, Repr

/-- The statement sequence of `generate_sql_script`: for nuke mode a DROP
and a CREATE (with the inline PRIMARY KEY marker, and a SERIAL identity
column exactly when no key was chosen and no `id` column exists), then one
INSERT per batch of at most 100 records; in upsert mode with a key each
INSERT carries `DO UPDATE SET` on the non-key columns, or `DO NOTHING` when
there are none. -/
def script_stmts (df : DataFrame) (table_name : String) (mode : String)
    (pk_field : Option String) : List ScriptStmt :=
  let dtype_map := analyze_dataframe df
  let ddl : List ScriptStmt :=
    if mode == "nuke" then
      [ScriptStmt.dropTable table_name,
       ScriptStmt.createTable table_name dtype_map pk_field
         (pk_field == none && !(df.columns.contains "id"))]
    else []
  let conflict : ConflictClause :=
    match pk_field with
    | some pk =>
      if mode == "upsert" then
        let update_sets := df.columns.filter (fun c => c ≠ pk)
        if !update_sets.isEmpty then .doUpdate pk update_sets else .doNothing pk
      else .noClause
    | none => .noClause
  let batches := chunks 100 (dfRecords df)
  ddl ++ batches.map (fun batch =>
    ScriptStmt.insertValues table_name df.columns
      (batch.map (fun rec => df.columns.map (fun c => getField rec c))) conflict)

/-- The DDL type name for each SQLAlchemy type (`sql_type` defaulting to
TEXT, then the JSONB / BIGINT / NUMERIC / BOOLEAN cases). -/
def sqlTypeDDL : SqlAlchemyType → String
  | .JSONB => "JSONB"
  | .BigInteger => "BIGINT"
  | .Float => "NUMERIC"
  | .Boolean => "BOOLEAN"
  | _ => "TEXT"

/-- Render one abstract statement into the exact entries the Python code
appends to `sql_lines`. -/
def renderStmt : ScriptStmt → List String
  | .dropTable t => ["DROP TABLE IF EXISTS " ++ dq t ++ ";\n"]
  | .createTable t cols pk serial =>
    let cols_sql := cols.map (fun cd =>
      "    " ++ dq cd.1 ++ " " ++ sqlTypeDDL cd.2 ++
        (if pk == some cd.1 then " PRIMARY KEY" else ""))
    let cols_sql := if serial then cols_sql ++ ["    " ++ dq "id" ++ " SERIAL PRIMARY KEY"]
      else cols_sql
    ["CREATE TABLE " ++ dq t ++ " (", String.intercalate ",\n" cols_sql, ");\n"]
  | .insertValues t cols rows cc =>
    let col_str := String.intercalate ", " (cols.map dq)
    let values_list := rows.map (fun row =>
      "(" ++ String.intercalate ", " (row.map to_sql_literal) ++ ")")
    let base := "INSERT INTO " ++ dq t ++ " (" ++ col_str ++ ")\nVALUES\n" ++
      String.intercalate ",\n" values_list
    let full :=
      match cc with
      | .noClause => base
      | .doUpdate pk sets =>
        base ++ "\nON CONFLICT (" ++ dq pk ++ ") DO UPDATE SET\n" ++
          String.intercalate ",\n" (sets.map (fun c => dq c ++ " = EXCLUDED." ++ dq c))
      | .doNothing pk => base ++ "\nON CONFLICT (" ++ dq pk ++ ") DO NOTHING"
    [full ++ ";\n"]

/-- The `sql_lines` list of `generate_sql_script`: the three header comments
followed by the rendering of every statement. -/
def generate_sql_lines (df : DataFrame) (table_name : String) (mode : String)
    (pk_field : Option String) (now_str : String) : List String :=
  ["-- Phoenix SQL Pro - Auto-generated Export",
   "-- Created: " ++ now_str,
   "-- Source: JSON\n"] ++
  ((script_stmts df table_name mode pk_field).map renderStmt).flatten

/-- `generate_sql_script`: the joined script text. -/
def generate_sql_script (df : DataFrame) (table_name : String) (mode : String)
    (pk_field : Option String) (now_str : String) : String :=
  String.intercalate "\n" (generate_sql_lines df table_name mode pk_field now_str)

/-- The destination table as PostgreSQL holds it: typed columns in order, an
optional single-column primary-key constraint, an optional SERIAL column
(whose sequence assigns ascending integers), and the rows (each aligned to
the column list). -/
structure TableState where
  cols : List (String × SqlAlchemyType)
  pk : Option String
  serial : Option String
  rows : List (List Value)
  deriving DecidableEq, Repr

/-- The destination database, restricted to the one target table: `none`
when the table does not exist. -/
abbrev DB := Option TableState

inductive ReplayError where
  | noTable
  | tableAlreadyExists
  | unknownColumn
  | noUniqueConstraint
  | uniqueViolation
  deriving DecidableEq, Repr

def colNames (ts : TableState) : List String := ts.cols.map Prod.fst

/-- The key value of a stored row. -/
def keyVal (ts : TableState) (f : String) (row : List Value) : Value :=
  cellVal (colNames ts) f row

/-- The row a multi-row INSERT materializes: each table column takes the
supplied value when listed, the next sequence value when it is the SERIAL
column, and NULL (the default) otherwise.  The sequence counter is the
current row count plus one, which is exact for the tables this engine
builds (fresh tables filled by sequential inserts). -/
def buildRow (ts : TableState) (insCols : List String) (vals : List Value) : List Value :=
  ts.cols.map (fun cd =>
    if insCols.contains cd.1 then ((insCols.zip vals).lookup cd.1).getD Value.vnull
    else if ts.serial = some cd.1 then Value.vint (Int.ofNat (ts.rows.length + 1))
    else Value.vnull)

/-- One row of a plain INSERT: fails with a unique violation when the table
has a primary key and the incoming key value collides with a stored row. -/
def insertPlainRow (insCols : List String) (ts : TableState) (vals : List Value) :
    Except ReplayError TableState :=
  let newRow := buildRow ts insCols vals
  match ts.pk with
  | some f =>
    if ts.rows.any (fun r => keyVal ts f r == keyVal ts f newRow) then .error .uniqueViolation
    else .ok { ts with rows := ts.rows ++ [newRow] }
  | none => .ok { ts with rows := ts.rows ++ [newRow] }

/-- One row of `INSERT ... ON CONFLICT (f) DO UPDATE SET`: on a key match the
listed columns of the stored row are overwritten with the EXCLUDED value
(the incoming value, NULL for a column the INSERT does not supply); otherwise
the row is appended. -/
def upsertRowStep (f : String) (setCols : List String) (insCols : List String)
    (ts : TableState) (vals : List Value) : TableState :=
  let newRow := buildRow ts insCols vals
  let kv := keyVal ts f newRow
  match ts.rows.findIdx? (fun r => keyVal ts f r == kv) with
  | some i =>
    let old := ts.rows.getD i []
    let excluded := fun c => ((insCols.zip vals).lookup c).getD Value.vnull
    let merged := (ts.cols.zip old).map (fun p =>
      if setCols.contains p.1.1 then excluded p.1.1 else p.2)
    { ts with rows := ts.rows.set i merged }
  | none => { ts with rows := ts.rows ++ [newRow] }

/-- One row of `INSERT ... ON CONFLICT (f) DO NOTHING`: a conflicting row is
skipped, a fresh key is appended. -/
def doNothingRowStep (f : String) (insCols : List String)
    (ts : TableState) (vals : List Value) : TableState :=
  let newRow := buildRow ts insCols vals
  let kv := keyVal ts f newRow
  if ts.rows.any (fun r => keyVal ts f r == kv) then ts
  else { ts with rows := ts.rows ++ [newRow] }

/-- Execute one (multi-row) INSERT statement against an existing table.
The statement is atomic: any row failure fails the whole statement.  A
conflict clause requires the named column to carry the unique (primary-key)
constraint, as PostgreSQL does for `ON CONFLICT`. -/
def execInsert (ts : TableState) (insCols : List String) (rows : List (List Value))
    (cc : ConflictClause) : Except ReplayError TableState :=
  if !(insCols.all (fun c => (colNames ts).contains c)) then .error .unknownColumn
  else
    match cc with
    | .noClause => rows.foldlM (insertPlainRow insCols) ts
    | .doUpdate f setCols =>
      if ts.pk = some f then .ok (rows.foldl (upsertRowStep f setCols insCols) ts)
      else .error .noUniqueConstraint
    | .doNothing f =>
      if ts.pk = some f then .ok (rows.foldl (doNothingRowStep f insCols) ts)
      else .error .noUniqueConstraint

/-- Replay one script statement against the destination. -/
def applyStmt (db : DB) : ScriptStmt → Except ReplayError DB
  | .dropTable _ => .ok none
  | .createTable _ cols pk serial =>
    match db with
    | some _ => .error .tableAlreadyExists
    | none => .ok (some
        { cols := cols ++ (if serial then [("id", SqlAlchemyType.Integer)] else []),
          pk := if serial then some "id" else pk,
          serial := if serial then some "id" else none,
          rows := [] })
  | .insertValues _ insCols rows cc =>
    match db with
    | none => .error .noTable
    | some ts => (execInsert ts insCols rows cc).map some

/-- Replay a whole script in order, stopping at the first error. -/
def replayStmts (db : DB) (stmts : List ScriptStmt) : Except ReplayError DB :=
  stmts.foldlM applyStmt db

/-- The fatal errors `process_data` can raise (all surfaced as exceptions in
the Python source). -/
inductive PhxError where
  | fieldNotFound (f : String)
  | engineRequired
  | upsertRequiresPk
  | missingConstraint (f : String)
  | appendFailed (e : ReplayError)
  | upsertBatchFailed (e : ReplayError)
  deriving DecidableEq, Repr

/-- The observable outcome of one `process_data` invocation: the destination
state after the run, the rendered script when the export path was taken, the
log lines emitted through the callback, and the error it raised, if any. -/
structure SyncResult where
  db : DB
  script : Option String
  logs : List String
  err : Option PhxError
  deriving DecidableEq, Repr

/-- Rendering of a value list for the duplicate-examples log line. -/
def valListStr (vs : List Value) : String :=
  "[" ++ String.intercalate ", " (vs.map to_sql_literal) ++ "]"

/-- The duplicate-check block of `process_data` (pk present in the data):
rows sharing a key with another row are reported (up to 5 distinct example
values), then `drop_duplicates(keep="last")` keeps the last occurrence of
each key and the removed count is logged. -/
def dupKeyStage (df : DataFrame) (f : String) : DataFrame × List String :=
  let keyOf := fun row => cellVal df.columns f row
  let dupes := df.rows.filter (fun r => 2 ≤ df.rows.countP (fun s => keyOf s == keyOf r))
  if dupes.isEmpty then (df, [])
  else
    let dupe_values := (dedupKeepFirst (dupes.map keyOf)).take 5
    let cleanedRows := dedupLastBy keyOf df.rows
    ({ df with rows := cleanedRows },
     ["[WARN] Data contains " ++ toString dupes.length ++ " rows with duplicate " ++
        sq ++ f ++ sq ++ " values!",
      "[WARN] Examples: " ++ valListStr dupe_values,
      "[*] Cleaning data: Keeping only the LAST occurrence of each " ++ sq ++ f ++ sq ++ "...",
      "[!] Cleaned: " ++ toString (df.rows.length - cleanedRows.length) ++
        " duplicate rows removed."])

/-- The DataFrame `process_data` works with after the duplicate check: the
raw frame when no key is chosen, the keep-last deduplicated frame otherwise.
Both the export branch and every live branch consume exactly this frame. -/
def prepared (records : List Record) (pk_field : Option String) : DataFrame :=
  let df0 := mkDataFrame records
  match pk_field with
  | none => df0
  | some f => (dupKeyStage df0 f).1

/-- Outcome of the stages of `process_data` that precede any sink use. -/
inductive PrepResult where
  | failed (logs : List String) (e : PhxError)
  | ready (df : DataFrame) (logs : List String)
  deriving Repr

/-- Reading, DataFrame construction, the eager primary-key existence check,
and duplicate resolution — everything `process_data` does before schema
inference and before touching any sink. -/
def prepStage (records : List Record) (json_path : String) (pk_field : Option String) :
    PrepResult :=
  let df0 := mkDataFrame records
  let logs0 := ["[*] Reading JSON: " ++ json_path ++ "...",
                "[*] " ++ toString df0.rows.length ++ " records loaded in memory."]
  match pk_field with
  | none => .ready df0 (logs0 ++ ["[*] Inferring SQL schema..."])
  | some f =>
    if df0.columns.contains f then
      let step := dupKeyStage df0 f
      .ready step.1 (logs0 ++ step.2 ++ ["[*] Inferring SQL schema..."])
    else
      .failed
        (logs0 ++ ["[ERROR] The selected PK field " ++ sq ++ f ++ sq ++
          " does not exist in the data."])
        (.fieldNotFound f)

/-- Whether `ALTER TABLE ... ADD PRIMARY KEY (f)` succeeds: the column must
exist and its values must be distinct and non-null. -/
def distinctVals : List Value → Bool
  | [] => true
  | v :: vs => !vs.contains v && distinctVals vs

def pkAddable (ts : TableState) (f : String) : Bool :=
  (colNames ts).contains f &&
  distinctVals (ts.rows.map (keyVal ts f)) &&
  !((ts.rows.map (keyVal ts f)).contains Value.vnull)

/-- Appending a SERIAL id column to existing rows: the sequence numbers the
rows 1, 2, ... in insertion order. -/
def numberRows : List (List Value) → Nat → List (List Value)
  | [], _ => []
  | r :: rs, k => (r ++ [Value.vint (Int.ofNat (k + 1))]) :: numberRows rs (k + 1)

/-- The nuke branch of the live path: drop, `df.to_sql(if_exists="replace")`
with the inferred dtype map, then either generate a SERIAL id column (no key
chosen and no `id` column in the data) or `ADD PRIMARY KEY` on the chosen
column (falling back to a logged warning when the constraint cannot be
added). -/
def live_nuke (df : DataFrame) (dtype_map : List (String × SqlAlchemyType))
    (table_name : String) (pk_field : Option String) : TableState × List String :=
  let base : TableState := { cols := dtype_map, pk := none, serial := none, rows := df.rows }
  let logs0 := ["[WARNING] NUKE Mode: Dropping table " ++ sq ++ table_name ++ sq ++ "...",
                "[*] Creating table and dumping data..."]
  let pk_col := pk_field.getD "id"
  if pk_col == "id" && !(df.columns.contains "id") then
    ({ cols := dtype_map ++ [("id", SqlAlchemyType.Integer)],
       pk := some "id", serial := some "id",
       rows := numberRows df.rows 0 },
     logs0 ++ ["[*] Generating serial ID column..."])
  else if pkAddable base pk_col then
    ({ base with pk := some pk_col },
     logs0 ++ ["[*] Setting " ++ sq ++ pk_col ++ sq ++ " as PRIMARY KEY..."])
  else
    (base,
     logs0 ++ ["[*] Setting " ++ sq ++ pk_col ++ sq ++ " as PRIMARY KEY...",
               "[WARN] Failed to set PK: constraint violation"])

/-- The append branch: `df.to_sql(if_exists="append")` creates the table
when absent (no primary key) and otherwise inserts all rows in one
transaction; a failure (schema mismatch or key collision) leaves the table
untouched and is fatal. -/
def live_append (df : DataFrame) (dtype_map : List (String × SqlAlchemyType))
    (table_name : String) (db : DB) : DB × List String × Option PhxError :=
  let logs0 := ["[*] APPEND Mode: Inserting into " ++ sq ++ table_name ++ sq ++ "..."]
  match db with
  | none => (some { cols := dtype_map, pk := none, serial := none, rows := df.rows },
             logs0, none)
  | some ts =>
    match execInsert ts df.columns df.rows ConflictClause.noClause with
    | .ok ts2 => (some ts2, logs0, none)
    | .error e =>
      (some ts,
       logs0 ++ ["[ERROR] Append failed. Possible duplicate or schema mismatch: error"],
       some (.appendFailed e))

/-- The destination type for one evolved column (lines mapping the dtype map
entry to a DDL type, defaulting to TEXT i.e. String). -/
def ddlTypeFor (dtype_map : List (String × SqlAlchemyType)) (c : String) : SqlAlchemyType :=
  (dtype_map.lookup c).getD SqlAlchemyType.String

/-- One `ALTER TABLE ADD COLUMN` attempt of the schema-evolution loop: a
failure (decided by the destination oracle `fails`) is logged as a warning
and the column is skipped; success appends the column and fills existing
rows with NULL.  Each attempt commits independently. -/
def evolveStep (fails : String → Bool) (dtype_map : List (String × SqlAlchemyType))
    (acc : TableState × List String) (c : String) : TableState × List String :=
  let ts := acc.1
  if fails c then
    (ts, acc.2 ++ ["[WARN] Failed adding column " ++ c ++ ": rejected by destination"])
  else
    ({ ts with cols := ts.cols ++ [(c, ddlTypeFor dtype_map c)],
               rows := ts.rows.map (fun r => r ++ [Value.vnull]) },
     acc.2 ++ ["    -> Added: " ++ c])

/-- The schema-evolution pass: one AddColumn attempt per incoming column
absent from the table. -/
def schemaEvolve (fails : String → Bool) (dtype_map : List (String × SqlAlchemyType))
    (df : DataFrame) (ts : TableState) : TableState × List String :=
  let new_cols := df.columns.filter (fun c => !((colNames ts).contains c))
  if new_cols.isEmpty then (ts, [])
  else new_cols.foldl (evolveStep fails dtype_map)
    (ts, ["[*] SCHEMA EVOLUTION: Adding " ++ toString new_cols.length ++ " new columns."])

/-- The batch loop of the live upsert: each batch is executed and committed
independently; a failing batch stops the loop with the statement rolled back
but every earlier batch still applied. -/
def runBatches (insCols : List String) (cc : ConflictClause) (total : Nat) :
    TableState → Nat → List (List (List Value)) → TableState × List String × Option ReplayError
  | ts, _, [] => (ts, [], none)
  | ts, i, b :: bs =>
    match execInsert ts insCols b cc with
    | .error e => (ts, [], some e)
    | .ok ts2 =>
      let done := min (i + 500) total
      let rest := runBatches insCols cc total ts2 (i + 500) bs
      (rest.1,
       ("    -> [BATCH] Processed " ++ toString done ++ "/" ++ toString total ++
          " records (Mode: UPSERT)") :: rest.2.1,
       rest.2.2)

/-- The upsert branch against an existing table: verify the primary-key
constraint, evolve the schema, then upsert in batches of 500 with
`DO UPDATE SET` over every non-key column of the (autoloaded) table — or
`DO NOTHING` when the table has no non-key column, mirroring the
`stmt.excluded` comprehension of the source. -/
def live_upsert_existing (df : DataFrame) (dtype_map : List (String × SqlAlchemyType))
    (table_name : String) (f : String) (fails : String → Bool) (ts : TableState) :
    DB × List String × Option PhxError :=
  let existing_pks := ts.pk.toList
  if !(existing_pks.contains f) then
    (some ts,
     ["[ERROR] Table " ++ sq ++ table_name ++ sq ++ " exists but does NOT have a PK on " ++
        sq ++ f ++ sq ++ ".",
      "[ERROR] UPSERT strategy depends on a UNIQUE/PK constraint. Use NUKE to rebuild."],
     some (.missingConstraint f))
  else
    let ev := schemaEvolve fails dtype_map df ts
    let ts2 := ev.1
    let update_cols := (colNames ts2).filter (fun c => c ≠ f)
    let cc := if !update_cols.isEmpty then ConflictClause.doUpdate f update_cols
      else ConflictClause.doNothing f
    let total := df.rows.length
    let run := runBatches df.columns cc total ts2 0 (chunks 500 df.rows)
    (some run.1,
     ev.2 ++ ["[*] Upserting " ++ toString total ++ " records in batches of 500..."] ++ run.2.1,
     run.2.2.map PhxError.upsertBatchFailed)

/-- The success line logged at the end of a completed run. -/
def successLine (mode : String) : String :=
  "[SUCCESS] Operation " ++ sq ++ mode.toUpper ++ sq ++ " complete."

/-- A complete nuke-mode live run of `process_data` (prelude, duplicate
check, inference, nuke, success log).  The upsert branch reuses it for the
automatic upsert-to-nuke transition on a missing table, which the source
implements as a recursive call that recomputes the same frame. -/
def nukeRun (records : List Record) (json_path table_name : String)
    (pk_field : Option String) (db : DB) : SyncResult :=
  match prepStage records json_path pk_field with
  | .failed logs e => { db := db, script := none, logs := logs, err := some e }
  | .ready df logs =>
    let dtype_map := analyze_dataframe df
    let nk := live_nuke df dtype_map table_name pk_field
    { db := some nk.1, script := none,
      logs := logs ++ nk.2 ++ [successLine "nuke"],
      err := none }

/-- `process_data`: the full engine.  `records` stands for the parsed JSON
array (reading and the root-shape check happen upstream of everything
modelled here), `hasEngine` for a usable engine argument, `export_path` for
the SQL-export destination, `db` for the destination table, `addColFails`
for which ALTER ADD COLUMN statements the destination rejects, and `now_str`
for the timestamp the script header embeds. -/
def process_data (records : List Record) (json_path table_name : String)
    (hasEngine : Bool) (mode : String) (pk_field : Option String)
    (export_path : Option String) (db : DB) (addColFails : String → Bool)
    (now_str : String) : SyncResult :=
  match prepStage records json_path pk_field with
  | .failed logs e => { db := db, script := none, logs := logs, err := some e }
  | .ready df logs =>
    let dtype_map := analyze_dataframe df
    match export_path with
    | some p =>
      { db := db,
        script := some (generate_sql_script df table_name mode pk_field now_str),
        logs := logs ++ ["[*] Exporting SQL Script to: " ++ p ++ "...",
                         "[SUCCESS] SQL Script saved successfully!"],
        err := none }
    | none =>
      if !hasEngine then { db := db, script := none, logs := logs, err := some .engineRequired }
      else if mode == "nuke" then nukeRun records json_path table_name pk_field db
      else if mode == "append" then
        let ap := live_append df dtype_map table_name db
        { db := ap.1, script := none,
          logs := logs ++ ap.2.1 ++ (if ap.2.2 = none then [successLine mode] else []),
          err := ap.2.2 }
      else if mode == "upsert" then
        match pk_field with
        | none => { db := db, script := none, logs := logs, err := some .upsertRequiresPk }
        | some f =>
          match db with
          | none =>
            let sub := nukeRun records json_path table_name pk_field none
            { sub with
              logs := logs ++ ["[*] Table does not exist. Initializing with NUKE..."] ++ sub.logs }
          | some ts =>
            let up := live_upsert_existing df dtype_map table_name f addColFails ts
            { db := up.1, script := none,
              logs := logs ++ up.2.1 ++ (if up.2.2 = none then [successLine mode] else []),
              err := up.2.2 }
      else { db := db, script := none, logs := logs ++ [successLine mode], err := none }

/-- The strict-policy abort error: the named key field plus example
duplicated values. -/
structure DuplicateKeyError where
  field : String
  examples : List Value
  deriving DecidableEq, Repr

/-- Modelled from the spec: the strict duplicate policy of the Duplicate
Resolver (spec sections 4.2 and 9) is the source variant that aborts on
duplicated keys; it is not present under src/, which implements only the
last-wins variant.  Per the spec it aborts the sync with a
DuplicateKeyError naming the field and up to 5 example duplicated values,
before type inference and before any destination write. -/
def strict_duplicate_policy (df : DataFrame) (f : String) : Option DuplicateKeyError :=
  let keyOf := fun row => cellVal df.columns f row
  let dupVals := (dedupKeepFirst (df.rows.map keyOf)).filter
    (fun v => 2 ≤ df.rows.countP (fun r => keyOf r == v))
  if dupVals.isEmpty then none else some { field := f, examples := dupVals.take 5 }

/-! ### Frame well-formedness -/

/-- A DataFrame with unique column names and aligned rows; every frame the
engine builds satisfies this. -/
def WF (df : DataFrame) : Prop :=
  df.columns.Nodup ∧ ∀ r ∈ df.rows, r.length = df.columns.length

deriving instance DecidableEq for Except

/-! ### List infrastructure lemmas -/

theorem chunksGo_flatten (n : Nat) (xs : List α) : ∀ acc,
    (chunksGo n xs acc).flatten = acc.reverse ++ xs := by
  induction xs with
  | nil =>
    intro acc
    cases acc with
    | nil => simp [chunksGo]
    | cons a as => simp [chunksGo]
  | cons x xs ih =>
    intro acc
    simp only [chunksGo]
    split
    · simp [ih]
    · simp [ih]

theorem chunks_flatten (n : Nat) (l : List α) : (chunks n l).flatten = l := by
  simpa [chunks] using chunksGo_flatten n l []

theorem chunksGo_sizes (n : Nat) (xs : List α) : ∀ acc, acc.length < n →
    ∀ b ∈ chunksGo n xs acc, b ≠ [] ∧ b.length ≤ n := by
  induction xs with
  | nil =>
    intro acc hacc b hb
    cases acc with
    | nil => simp [chunksGo] at hb
    | cons a as =>
      have hb2 : b = (a :: as).reverse := by simpa [chunksGo] using hb
      subst hb2
      constructor
      · simp
      · simp only [List.length_cons] at hacc
        rw [List.length_reverse, List.length_cons]
        omega
  | cons x xs ih =>
    intro acc hacc b hb
    simp only [chunksGo] at hb
    split at hb
    · rcases List.mem_cons.mp hb with h | h
      · subst h
        refine ⟨by simp, ?_⟩
        simp only [List.length_reverse, List.length_cons]
        omega
      · exact ih [] (by simpa using Nat.lt_of_le_of_lt (Nat.zero_le _) hacc) b h
    · exact ih (x :: acc) (by simp only [List.length_cons] at *; omega) b hb

theorem chunks_sizes (n : Nat) (l : List α) (hn : 0 < n) :
    ∀ b ∈ chunks n l, b ≠ [] ∧ b.length ≤ n := by
  exact chunksGo_sizes n l [] (by simpa using hn)

theorem chunksGo_map (n : Nat) (g : α → β) (xs : List α) : ∀ acc,
    chunksGo n (xs.map g) (acc.map g) = (chunksGo n xs acc).map (List.map g) := by
  induction xs with
  | nil => intro acc; cases acc <;> simp [chunksGo]
  | cons x xs ih =>
    intro acc
    simp only [List.map_cons, chunksGo, List.length_cons, List.length_map]
    by_cases h : n ≤ acc.length + 1
    · simp only [if_pos h, List.map_cons]
      have h0 : chunksGo n (xs.map g) ([] : List β) =
          chunksGo n (xs.map g) (([] : List α).map g) := by simp
      rw [h0, ih []]
      simp [← List.map_reverse]
    · simp only [if_neg h]
      have h2 : g x :: acc.map g = (x :: acc).map g := by simp
      rw [h2, ih (x :: acc)]

theorem chunks_map (n : Nat) (g : α → β) (l : List α) :
    chunks n (l.map g) = (chunks n l).map (List.map g) := by
  have h0 : chunks n (l.map g) = chunksGo n (l.map g) (([] : List α).map g) := by simp [chunks]
  rw [h0, chunksGo_map]
  simp [chunks]

theorem lookup_cons_ne {β : Type} (c k : String) (v : β) (l : List (String × β)) (h : c ≠ k) :
    ((k, v) :: l).lookup c = l.lookup c := by
  simp [List.lookup, beq_eq_false_iff_ne.mpr h]

theorem lookup_append_of_not_fst {β : Type} (l1 l2 : List (String × β)) (c : String)
    (h : c ∉ l1.map Prod.fst) : (l1 ++ l2).lookup c = l2.lookup c := by
  induction l1 with
  | nil => simp
  | cons p l1 ih =>
    simp only [List.map_cons, List.mem_cons] at h
    push_neg at h
    cases p with
    | mk k v =>
      rw [List.cons_append, lookup_cons_ne c k v _ h.1]
      exact ih h.2

theorem map_lookup_zip (cols : List String) : ∀ vals : List Value,
    cols.Nodup → vals.length = cols.length →
    cols.map (fun c => ((cols.zip vals).lookup c).getD Value.vnull) = vals := by
  induction cols with
  | nil =>
    intro vals _ hlen
    cases vals with
    | nil => simp
    | cons v vs => simp at hlen
  | cons c cs ih =>
    intro vals hnodup hlen
    cases vals with
    | nil => simp at hlen
    | cons v vs =>
      simp only [List.zip_cons_cons, List.map_cons, List.cons.injEq]
      constructor
      · simp [List.lookup]
      · have hne : ∀ c2 ∈ cs, c2 ≠ c := by
          intro c2 h2
          have := (List.nodup_cons.mp hnodup).1
          intro he
          exact this (he ▸ h2)
        have hcong : cs.map (fun c2 => ((((c, v) :: cs.zip vs)).lookup c2).getD Value.vnull) =
            cs.map (fun c2 => ((cs.zip vs).lookup c2).getD Value.vnull) := by
          apply List.map_congr_left
          intro c2 h2
          rw [lookup_cons_ne c2 c v _ (hne c2 h2)]
        rw [hcong]
        exact ih vs (List.nodup_cons.mp hnodup).2 (by simpa using hlen)

theorem cellVal_zip_map (cols : List String) (g : String → Value) (c : String) :
    c ∈ cols → cellVal cols c (cols.map g) = g c := by
  induction cols with
  | nil => intro h; simp at h
  | cons c1 cs ih =>
    intro h
    by_cases he : c = c1
    · subst he
      simp [cellVal, List.lookup]
    · have hc : c ∈ cs := by
        rcases List.mem_cons.mp h with h1 | h1
        · exact absurd h1 he
        · exact h1
      simp only [cellVal, List.map_cons, List.zip_cons_cons]
      rw [lookup_cons_ne c c1 (g c1) _ he]
      exact ih hc

theorem cellVal_append_last (cols : List String) (row : List Value) (c : String) (v : Value)
    (hnotin : c ∉ cols) (hlen : row.length = cols.length) :
    cellVal (cols ++ [c]) c (row ++ [v]) = v := by
  simp only [cellVal]
  rw [List.zip_append hlen.symm]
  rw [lookup_append_of_not_fst _ _ c]
  · simp [List.lookup]
  · intro hmem
    rcases List.mem_map.mp hmem with ⟨p, hp, hfst⟩
    exact hnotin (hfst ▸ (List.of_mem_zip hp).1)

/-! ### Keep-last deduplication lemmas -/

theorem dedupLastBy_sublist (k : α → Value) : ∀ l : List α, (dedupLastBy k l).Sublist l := by
  intro l
  induction l with
  | nil => simp [dedupLastBy]
  | cons r rs ih =>
    simp only [dedupLastBy]
    split
    · exact ih.cons r
    · exact ih.cons₂ r

theorem dedupLastBy_pairwise (k : α → Value) :
    ∀ l : List α, (dedupLastBy k l).Pairwise (fun a b => ¬ k a = k b) := by
  intro l
  induction l with
  | nil => simp [dedupLastBy]
  | cons r rs ih =>
    simp only [dedupLastBy]
    split
    · exact ih
    · rename_i hany
      refine List.pairwise_cons.mpr ⟨?_, ih⟩
      intro b hb
      have hbrs : b ∈ rs := (dedupLastBy_sublist k rs).subset hb
      simp only [List.any_eq_true, not_exists, not_and, Bool.not_eq_true] at hany
      have := hany b hbrs
      intro he
      rw [he] at this
      simp at this

theorem dedupLastBy_of_pairwise (k : α → Value) :
    ∀ l : List α, l.Pairwise (fun a b => ¬ k a = k b) → dedupLastBy k l = l := by
  intro l
  induction l with
  | nil => intro _; rfl
  | cons r rs ih =>
    intro h
    have hc := List.pairwise_cons.mp h
    simp only [dedupLastBy]
    have hany : rs.any (fun s => k s == k r) = false := by
      simp only [List.any_eq_false]
      intro s hs
      have := hc.1 s hs
      simp only [beq_iff_eq]
      intro he
      exact this he.symm
    rw [hany]
    simp [ih hc.2]

theorem dedupLastBy_filter (k : α → Value) (v : Value) :
    ∀ l : List α, (dedupLastBy k l).filter (fun r => k r == v) =
      ((l.filter (fun r => k r == v)).getLast?).toList := by
  intro l
  induction l with
  | nil => simp [dedupLastBy]
  | cons r rs ih =>
    simp only [dedupLastBy]
    by_cases hany : rs.any (fun s => k s == k r) = true
    · rw [if_pos hany]
      by_cases hv : k r = v
      · have hkr : (k r == v) = true := beq_iff_eq.mpr hv
        rw [List.filter_cons, if_pos hkr]
        rcases List.any_eq_true.mp hany with ⟨s, hs, hks⟩
        have hsv : (k s == v) = true := by
          rw [beq_iff_eq] at hks ⊢
          rw [hks, hv]
        have hmem : s ∈ rs.filter (fun r => k r == v) := List.mem_filter.mpr ⟨hs, hsv⟩
        have hne : rs.filter (fun r => k r == v) ≠ [] := by
          intro he
          rw [he] at hmem
          simp at hmem
        rw [ih]
        cases hf : rs.filter (fun r => k r == v) with
        | nil => exact absurd hf hne
        | cons a l2 => rw [List.getLast?_cons_cons]
      · have hkr : (k r == v) = false := by
          simp only [beq_eq_false_iff_ne, ne_eq]
          exact hv
        rw [List.filter_cons, if_neg (show ¬ ((k r == v) = true) by simp [hkr])]
        exact ih
    · rw [if_neg hany]
      simp only [List.any_eq_true, not_exists, not_and, Bool.not_eq_true] at hany
      by_cases hv : k r = v
      · have hkr : (k r == v) = true := beq_iff_eq.mpr hv
        rw [List.filter_cons, if_pos hkr]
        rw [List.filter_cons, if_pos hkr]
        have hfilrs : rs.filter (fun r => k r == v) = [] := by
          apply List.filter_eq_nil_iff.mpr
          intro s hs
          have := hany s hs
          simp only [beq_iff_eq] at this ⊢
          intro he
          exact absurd (he.trans hv.symm) (by simpa using this)
        have hfil2 : (dedupLastBy k rs).filter (fun r => k r == v) = [] := by
          apply List.filter_eq_nil_iff.mpr
          intro s hs
          have hsrs := (dedupLastBy_sublist k rs).subset hs
          have := hany s hsrs
          simp only [beq_iff_eq] at this ⊢
          intro he
          exact absurd (he.trans hv.symm) (by simpa using this)
        rw [hfilrs, hfil2]
        simp
      · have hkr : (k r == v) = false := by
          simp only [beq_eq_false_iff_ne, ne_eq]
          exact hv
        rw [List.filter_cons, if_neg (show ¬ ((k r == v) = true) by simp [hkr])]
        rw [List.filter_cons, if_neg (show ¬ ((k r == v) = true) by simp [hkr])]
        exact ih

theorem distinctVals_of_nodup : ∀ l : List Value, l.Nodup → distinctVals l = true := by
  intro l
  induction l with
  | nil => intro _; rfl
  | cons v vs ih =>
    intro h
    have hc := List.nodup_cons.mp h
    simp only [distinctVals, Bool.and_eq_true, Bool.not_eq_true']
    exact ⟨by simpa using hc.1, ih hc.2⟩

theorem dedupLastBy_of_count (k : α → Value) :
    ∀ l : List α, (∀ r ∈ l, l.countP (fun s => k s == k r) ≤ 1) → dedupLastBy k l = l := by
  intro l
  induction l with
  | nil => intro _; rfl
  | cons r rs ih =>
    intro h
    have hany : rs.any (fun s => k s == k r) = false := by
      by_contra hc
      rcases List.any_eq_true.mp (Bool.of_not_eq_false hc) with ⟨s, hs, hks⟩
      have hcount := h r (List.mem_cons_self r rs)
      rw [List.countP_cons_of_pos _ _ (by simp)] at hcount
      have hone : 1 ≤ rs.countP (fun s => k s == k r) :=
        List.countP_pos_iff.mpr ⟨s, hs, hks⟩
      omega
    simp only [dedupLastBy, hany]
    simp only [Bool.false_eq_true, reduceIte]
    congr 1
    apply ih
    intro r2 h2
    have := h r2 (List.mem_cons_of_mem r h2)
    rw [List.countP_cons] at this
    omega

theorem addKeys_nodup (r : Record) : ∀ acc : List String, acc.Nodup → (addKeys acc r).Nodup := by
  unfold addKeys
  induction r with
  | nil => intro acc h; exact h
  | cons kv r ih =>
    intro acc h
    simp only [List.foldl_cons]
    by_cases hc : acc.contains kv.1
    · rw [if_pos hc]
      exact ih acc h
    · rw [if_neg hc]
      apply ih
      have hmem : kv.1 ∉ acc := by
        intro hm
        exact hc (by simpa using hm)
      simp [List.nodup_append, h, hmem]

theorem recordKeys_nodup (rs : List Record) : (recordKeys rs).Nodup := by
  unfold recordKeys
  have hgen : ∀ acc : List String, acc.Nodup → (rs.foldl addKeys acc).Nodup := by
    induction rs with
    | nil => intro acc h; exact h
    | cons r rs ih =>
      intro acc h
      simp only [List.foldl_cons]
      exact ih _ (addKeys_nodup r acc h)
  exact hgen [] List.nodup_nil

theorem mkDataFrame_wf (rs : List Record) : WF (mkDataFrame rs) := by
  constructor
  · exact recordKeys_nodup rs
  · intro r hr
    simp only [mkDataFrame, List.mem_map] at hr
    rcases hr with ⟨rec, _, hmap⟩
    simp [mkDataFrame, ← hmap]

theorem dupKeyStage_columns (df : DataFrame) (f : String) :
    (dupKeyStage df f).1.columns = df.columns := by
  simp only [dupKeyStage]
  split <;> rfl

theorem dupKeyStage_rows (df : DataFrame) (f : String) :
    (dupKeyStage df f).1.rows = dedupLastBy (cellVal df.columns f) df.rows := by
  simp only [dupKeyStage]
  split
  · rename_i hemp
    have hnil := List.isEmpty_iff.mp hemp
    have hcount : ∀ r ∈ df.rows,
        df.rows.countP (fun s => cellVal df.columns f s == cellVal df.columns f r) ≤ 1 := by
      intro r hr
      by_contra hc
      have h2 : 2 ≤ df.rows.countP
          (fun s => cellVal df.columns f s == cellVal df.columns f r) := by omega
      have : r ∈ df.rows.filter (fun r => 2 ≤ df.rows.countP
          (fun s => cellVal df.columns f s == cellVal df.columns f r)) := by
        apply List.mem_filter.mpr
        exact ⟨hr, by simpa using h2⟩
      rw [hnil] at this
      simp at this
    exact (dedupLastBy_of_count _ df.rows hcount).symm
  · rfl

theorem dupKeyStage_wf (df : DataFrame) (f : String) (h : WF df) : WF (dupKeyStage df f).1 := by
  constructor
  · rw [dupKeyStage_columns]
    exact h.1
  · intro r hr
    rw [dupKeyStage_rows] at hr
    rw [dupKeyStage_columns]
    exact h.2 r ((dedupLastBy_sublist _ df.rows).subset hr)

theorem prepared_wf (records : List Record) (pk_field : Option String) :
    WF (prepared records pk_field) := by
  unfold prepared
  cases pk_field with
  | none => exact mkDataFrame_wf records
  | some f => exact dupKeyStage_wf _ f (mkDataFrame_wf records)

theorem analyze_fst (df : DataFrame) : (analyze_dataframe df).map Prod.fst = df.columns := by
  unfold analyze_dataframe
  rw [List.map_map]
  exact List.map_id df.columns

/-! ### Row-step invariants -/

theorem upsertRowStep_fields (f : String) (s insCols : List String)
    (ts : TableState) (v : List Value) :
    (upsertRowStep f s insCols ts v).cols = ts.cols ∧
    (upsertRowStep f s insCols ts v).pk = ts.pk ∧
    (upsertRowStep f s insCols ts v).serial = ts.serial := by
  unfold upsertRowStep
  cases h : ts.rows.findIdx? (fun r => keyVal ts f r ==
      keyVal ts f (buildRow ts insCols v)) <;> simp [h]

theorem doNothingRowStep_fields (f : String) (insCols : List String)
    (ts : TableState) (v : List Value) :
    (doNothingRowStep f insCols ts v).cols = ts.cols ∧
    (doNothingRowStep f insCols ts v).pk = ts.pk ∧
    (doNothingRowStep f insCols ts v).serial = ts.serial := by
  simp only [doNothingRowStep]
  split <;> simp

theorem foldl_fields_preserved (g : TableState → List Value → TableState)
    (hg : ∀ ts v, (g ts v).cols = ts.cols ∧ (g ts v).pk = ts.pk ∧ (g ts v).serial = ts.serial) :
    ∀ (rows : List (List Value)) (ts : TableState),
      ((rows.foldl g ts).cols = ts.cols ∧ (rows.foldl g ts).pk = ts.pk ∧
       (rows.foldl g ts).serial = ts.serial) := by
  intro rows
  induction rows with
  | nil => intro ts; exact ⟨rfl, rfl, rfl⟩
  | cons v rows ih =>
    intro ts
    simp only [List.foldl_cons]
    rcases ih (g ts v) with ⟨h1, h2, h3⟩
    rcases hg ts v with ⟨g1, g2, g3⟩
    exact ⟨h1.trans g1, h2.trans g2, h3.trans g3⟩

theorem execInsert_doUpdate (ts : TableState) (insCols : List String)
    (rows : List (List Value)) (f : String) (s : List String)
    (h1 : insCols.all (fun c => (colNames ts).contains c) = true) (h2 : ts.pk = some f) :
    execInsert ts insCols rows (.doUpdate f s) =
      .ok (rows.foldl (upsertRowStep f s insCols) ts) := by
  have h1m : ∀ x ∈ insCols, x ∈ colNames ts := by
    intro x hx
    have := List.all_eq_true.mp h1 x hx
    simpa using this
  simp [execInsert, h1, h2]
  exact h1m

theorem execInsert_doNothing (ts : TableState) (insCols : List String)
    (rows : List (List Value)) (f : String)
    (h1 : insCols.all (fun c => (colNames ts).contains c) = true) (h2 : ts.pk = some f) :
    execInsert ts insCols rows (.doNothing f) =
      .ok (rows.foldl (doNothingRowStep f insCols) ts) := by
  have h1m : ∀ x ∈ insCols, x ∈ colNames ts := by
    intro x hx
    have := List.all_eq_true.mp h1 x hx
    simpa using this
  simp [execInsert, h1, h2]
  exact h1m

/-! ### Row construction lemmas -/

theorem buildRow_eq_names_map (ts : TableState) (insCols : List String) (vals : List Value) :
    buildRow ts insCols vals = (colNames ts).map (fun c =>
      if insCols.contains c then ((insCols.zip vals).lookup c).getD Value.vnull
      else if ts.serial = some c then Value.vint (Int.ofNat (ts.rows.length + 1))
      else Value.vnull) := by
  unfold buildRow colNames
  rw [List.map_map]
  rfl

theorem buildRow_ident (ts : TableState) (insCols : List String) (vals : List Value)
    (hn : colNames ts = insCols) (hnodup : insCols.Nodup)
    (hlen : vals.length = insCols.length) :
    buildRow ts insCols vals = vals := by
  rw [buildRow_eq_names_map, hn]
  have hcong : insCols.map (fun c =>
      if insCols.contains c then ((insCols.zip vals).lookup c).getD Value.vnull
      else if ts.serial = some c then Value.vint (Int.ofNat (ts.rows.length + 1))
      else Value.vnull) =
      insCols.map (fun c => ((insCols.zip vals).lookup c).getD Value.vnull) := by
    apply List.map_congr_left
    intro c hc
    rw [if_pos (by simpa using hc)]
  rw [hcong]
  exact map_lookup_zip insCols vals hnodup hlen

theorem buildRow_serial (ts : TableState) (base : List (String × SqlAlchemyType))
    (insCols : List String) (vals : List Value)
    (hcols : ts.cols = base ++ [("id", SqlAlchemyType.Integer)])
    (hn : base.map Prod.fst = insCols) (hid : "id" ∉ insCols) (hnodup : insCols.Nodup)
    (hlen : vals.length = insCols.length) (hser : ts.serial = some "id") :
    buildRow ts insCols vals = vals ++ [Value.vint (Int.ofNat (ts.rows.length + 1))] := by
  have hnames : colNames ts = insCols ++ ["id"] := by
    simp [colNames, hcols, hn]
  rw [buildRow_eq_names_map, hnames, List.map_append]
  congr 1
  · have hcong : insCols.map (fun c =>
        if insCols.contains c then ((insCols.zip vals).lookup c).getD Value.vnull
        else if ts.serial = some c then Value.vint (Int.ofNat (ts.rows.length + 1))
        else Value.vnull) =
        insCols.map (fun c => ((insCols.zip vals).lookup c).getD Value.vnull) := by
      apply List.map_congr_left
      intro c hc
      rw [if_pos (by simpa using hc)]
    rw [hcong]
    exact map_lookup_zip insCols vals hnodup hlen
  · simp only [List.map_cons, List.map_nil]
    rw [if_neg (show ¬ (insCols.contains "id" = true) by simpa using hid), if_pos hser]

theorem keyVal_cellVal (ts : TableState) (insCols : List String) (f : String)
    (row : List Value) (hn : colNames ts = insCols) :
    keyVal ts f row = cellVal insCols f row := by
  rw [keyVal, hn]

/-! ### Plain multi-row insert with distinct keys -/

theorem plain_insert_all (insCols : List String) (f : String) :
    ∀ (rows : List (List Value)) (ts : TableState),
    colNames ts = insCols → insCols.Nodup → ts.pk = some f →
    (∀ v ∈ rows, v.length = insCols.length) →
    (∀ r ∈ ts.rows, ∀ v ∈ rows, ¬ cellVal insCols f r = cellVal insCols f v) →
    rows.Pairwise (fun a b => ¬ cellVal insCols f a = cellVal insCols f b) →
    rows.foldlM (insertPlainRow insCols) ts = .ok { ts with rows := ts.rows ++ rows } := by
  intro rows
  induction rows with
  | nil =>
    intro ts hn hnd hpk hlen hdisj hpw
    simp only [List.foldlM_nil, List.append_nil]
    rfl
  | cons v rest ih =>
    intro ts hn hnd hpk hlen hdisj hpw
    have hv : buildRow ts insCols v = v :=
      buildRow_ident ts insCols v hn hnd (hlen v (List.mem_cons_self v rest))
    have hany : (ts.rows.any fun r => keyVal ts f r == keyVal ts f v) = false := by
      apply List.any_eq_false.mpr
      intro r hr
      simp only [beq_iff_eq]
      rw [keyVal_cellVal ts insCols f r hn, keyVal_cellVal ts insCols f v hn]
      exact hdisj r hr v (List.mem_cons_self v rest)
    have hstep : insertPlainRow insCols ts v = .ok { ts with rows := ts.rows ++ [v] } := by
      simp only [insertPlainRow, hv, hpk, hany]
      rfl
    rw [List.foldlM_cons, hstep]
    have hts2 := ih { ts with rows := ts.rows ++ [v] } hn hnd hpk
      (fun w hw => hlen w (List.mem_cons_of_mem v hw))
      (by
        intro r hr w hw
        simp only [List.mem_append, List.mem_singleton] at hr
        rcases hr with hr | hr
        · exact hdisj r hr w (List.mem_cons_of_mem v hw)
        · subst hr
          exact (List.pairwise_cons.mp hpw).1 w hw)
      (List.pairwise_cons.mp hpw).2
    show List.foldlM (insertPlainRow insCols) { ts with rows := ts.rows ++ [v] } rest = _
    rw [hts2]
    simp

/-! ### SERIAL numbering lemmas -/

theorem numberRows_length : ∀ (l : List (List Value)) (k : Nat),
    (numberRows l k).length = l.length := by
  intro l
  induction l with
  | nil => intro k; rfl
  | cons r rs ih => intro k; simp [numberRows, ih]

theorem numberRows_snoc : ∀ (l : List (List Value)) (k : Nat) (r : List Value),
    numberRows (l ++ [r]) k =
      numberRows l k ++ [r ++ [Value.vint (Int.ofNat (k + l.length + 1))]] := by
  intro l
  induction l with
  | nil => intro k r; simp [numberRows]
  | cons a l ih =>
    intro k r
    show (a ++ [Value.vint (Int.ofNat (k + 1))]) :: numberRows (l ++ [r]) (k + 1) = _
    rw [ih (k + 1)]
    simp only [numberRows, List.cons_append, List.length_cons]
    rw [show k + 1 + l.length + 1 = k + (l.length + 1) + 1 by omega]

theorem numberRows_mem : ∀ (l : List (List Value)) (k : Nat) (x : List Value),
    x ∈ numberRows l k →
    ∃ r j, r ∈ l ∧ x = r ++ [Value.vint (Int.ofNat (j + 1))] ∧ k ≤ j ∧ j < k + l.length := by
  intro l
  induction l with
  | nil => intro k x hx; simp [numberRows] at hx
  | cons a l ih =>
    intro k x hx
    simp only [numberRows, List.mem_cons] at hx
    rcases hx with hx | hx
    · exact ⟨a, k, List.mem_cons_self a l, hx, Nat.le_refl k, by simp⟩
    · rcases ih (k + 1) x hx with ⟨r, j, hr, hx2, hj1, hj2⟩
      refine ⟨r, j, List.mem_cons_of_mem a hr, hx2, by omega, by
        simp only [List.length_cons]; omega⟩

/-! ### Multi-row insert into a SERIAL table -/

theorem serial_insert_all (base : List (String × SqlAlchemyType)) (insCols : List String) :
    ∀ (rows : List (List Value)) (L : List (List Value)) (ts : TableState),
    ts.cols = base ++ [("id", SqlAlchemyType.Integer)] →
    base.map Prod.fst = insCols → "id" ∉ insCols → insCols.Nodup →
    ts.pk = some "id" → ts.serial = some "id" →
    (∀ v ∈ rows, v.length = insCols.length) →
    (∀ r ∈ L, r.length = insCols.length) →
    ts.rows = numberRows L 0 →
    rows.foldlM (insertPlainRow insCols) ts = .ok { ts with rows := numberRows (L ++ rows) 0 } := by
  intro rows
  induction rows with
  | nil =>
    intro L ts h1 h2 h3 h4 h5 h6 h7 h8 h9
    simp only [List.foldlM_nil, List.append_nil, ← h9]
    rfl
  | cons v rest ih =>
    intro L ts h1 h2 h3 h4 h5 h6 h7 h8 h9
    have hnames : colNames ts = insCols ++ ["id"] := by
      simp [colNames, h1, h2]
    have hlenrows : ts.rows.length = L.length := by rw [h9, numberRows_length]
    have hv : buildRow ts insCols v = v ++ [Value.vint (Int.ofNat (L.length + 1))] := by
      rw [buildRow_serial ts base insCols v h1 h2 h3 h4
        (h7 v (List.mem_cons_self v rest)) h6, hlenrows]
    have hkeynew : keyVal ts "id" (v ++ [Value.vint (Int.ofNat (L.length + 1))]) =
        Value.vint (Int.ofNat (L.length + 1)) := by
      rw [keyVal, hnames]
      exact cellVal_append_last insCols v "id" _ h3 (h7 v (List.mem_cons_self v rest))
    have hany : (ts.rows.any fun r => keyVal ts "id" r ==
        keyVal ts "id" (v ++ [Value.vint (Int.ofNat (L.length + 1))])) = false := by
      apply List.any_eq_false.mpr
      intro r hr
      rw [hkeynew]
      simp only [beq_iff_eq]
      rw [h9] at hr
      rcases numberRows_mem L 0 r hr with ⟨r0, j, hr0, hre, _, hj2⟩
      subst hre
      rw [keyVal, hnames, cellVal_append_last insCols r0 "id" _ h3 (h8 r0 hr0)]
      intro hcontra
      injection hcontra with hints
      have hj : j + 1 = L.length + 1 := Int.ofNat_inj.mp hints
      omega
    have hstep : insertPlainRow insCols ts v =
        .ok { ts with rows := ts.rows ++ [v ++ [Value.vint (Int.ofNat (L.length + 1))]] } := by
      simp only [insertPlainRow, h5, hv, hany]
      rfl
    rw [List.foldlM_cons, hstep]
    have hrows2 : ts.rows ++ [v ++ [Value.vint (Int.ofNat (L.length + 1))]] =
        numberRows (L ++ [v]) 0 := by
      rw [h9, numberRows_snoc]
      simp
    have hts2 := ih (L ++ [v])
      { ts with rows := ts.rows ++ [v ++ [Value.vint (Int.ofNat (L.length + 1))]] }
      h1 h2 h3 h4 h5 h6 (fun w hw => h7 w (List.mem_cons_of_mem v hw))
      (by
        intro r hrm
        rcases List.mem_append.mp hrm with hmm | hmm
        · exact h8 r hmm
        · rw [List.mem_singleton.mp hmm]
          exact h7 v (List.mem_cons_self v rest))
      hrows2
    show List.foldlM (insertPlainRow insCols)
      { ts with rows := ts.rows ++ [v ++ [Value.vint (Int.ofNat (L.length + 1))]] } rest = _
    rw [hts2]
    simp [List.append_assoc]

/-! ### Batch-loop and replay fold lemmas -/

theorem colNames_foldl_upsert (f : String) (s insCols : List String)
    (b : List (List Value)) (ts : TableState) :
    colNames (b.foldl (upsertRowStep f s insCols) ts) = colNames ts ∧
    (b.foldl (upsertRowStep f s insCols) ts).pk = ts.pk := by
  have h := foldl_fields_preserved (upsertRowStep f s insCols)
    (upsertRowStep_fields f s insCols) b ts
  exact ⟨by simp [colNames, h.1], h.2.1⟩

theorem colNames_foldl_doNothing (f : String) (insCols : List String)
    (b : List (List Value)) (ts : TableState) :
    colNames (b.foldl (doNothingRowStep f insCols) ts) = colNames ts ∧
    (b.foldl (doNothingRowStep f insCols) ts).pk = ts.pk := by
  have h := foldl_fields_preserved (doNothingRowStep f insCols)
    (doNothingRowStep_fields f insCols) b ts
  exact ⟨by simp [colNames, h.1], h.2.1⟩

theorem runBatches_doUpdate (insCols : List String) (f : String) (s : List String) (total : Nat) :
    ∀ (bs : List (List (List Value))) (ts : TableState) (i : Nat),
    insCols.all (fun c => (colNames ts).contains c) = true → ts.pk = some f →
    (runBatches insCols (.doUpdate f s) total ts i bs).1 =
      bs.flatten.foldl (upsertRowStep f s insCols) ts ∧
    (runBatches insCols (.doUpdate f s) total ts i bs).2.2 = none := by
  intro bs
  induction bs with
  | nil => intro ts i h1 h2; exact ⟨rfl, rfl⟩
  | cons b bs ih =>
    intro ts i h1 h2
    have hexec := execInsert_doUpdate ts insCols b f s h1 h2
    have hinv := colNames_foldl_upsert f s insCols b ts
    have hrec := ih (b.foldl (upsertRowStep f s insCols) ts) (i + 500)
      (by rw [hinv.1]; exact h1) (by rw [hinv.2]; exact h2)
    simp only [runBatches, hexec]
    refine ⟨?_, hrec.2⟩
    rw [List.flatten_cons, List.foldl_append]
    exact hrec.1

theorem runBatches_doNothing (insCols : List String) (f : String) (total : Nat) :
    ∀ (bs : List (List (List Value))) (ts : TableState) (i : Nat),
    insCols.all (fun c => (colNames ts).contains c) = true → ts.pk = some f →
    (runBatches insCols (.doNothing f) total ts i bs).1 =
      bs.flatten.foldl (doNothingRowStep f insCols) ts ∧
    (runBatches insCols (.doNothing f) total ts i bs).2.2 = none := by
  intro bs
  induction bs with
  | nil => intro ts i h1 h2; exact ⟨rfl, rfl⟩
  | cons b bs ih =>
    intro ts i h1 h2
    have hexec := execInsert_doNothing ts insCols b f h1 h2
    have hinv := colNames_foldl_doNothing f insCols b ts
    have hrec := ih (b.foldl (doNothingRowStep f insCols) ts) (i + 500)
      (by rw [hinv.1]; exact h1) (by rw [hinv.2]; exact h2)
    simp only [runBatches, hexec]
    refine ⟨?_, hrec.2⟩
    rw [List.flatten_cons, List.foldl_append]
    exact hrec.1

theorem replay_inserts_doUpdate (t : String) (insCols : List String) (f : String)
    (s : List String) :
    ∀ (bs : List (List (List Value))) (ts : TableState),
    insCols.all (fun c => (colNames ts).contains c) = true → ts.pk = some f →
    replayStmts (some ts)
      (bs.map (fun b => ScriptStmt.insertValues t insCols b (.doUpdate f s))) =
      .ok (some (bs.flatten.foldl (upsertRowStep f s insCols) ts)) := by
  intro bs
  induction bs with
  | nil => intro ts h1 h2; rfl
  | cons b bs ih =>
    intro ts h1 h2
    have hexec := execInsert_doUpdate ts insCols b f s h1 h2
    have happly : applyStmt (some ts) (ScriptStmt.insertValues t insCols b (.doUpdate f s)) =
        .ok (some (b.foldl (upsertRowStep f s insCols) ts)) := by
      simp only [applyStmt, hexec]
      rfl
    have hinv := colNames_foldl_upsert f s insCols b ts
    have hrec := ih (b.foldl (upsertRowStep f s insCols) ts)
      (by rw [hinv.1]; exact h1) (by rw [hinv.2]; exact h2)
    simp only [replayStmts, List.map_cons, List.foldlM_cons, happly]
    show replayStmts (some (b.foldl (upsertRowStep f s insCols) ts)) _ = _
    rw [hrec, List.flatten_cons, List.foldl_append]

theorem replay_inserts_doNothing (t : String) (insCols : List String) (f : String) :
    ∀ (bs : List (List (List Value))) (ts : TableState),
    insCols.all (fun c => (colNames ts).contains c) = true → ts.pk = some f →
    replayStmts (some ts)
      (bs.map (fun b => ScriptStmt.insertValues t insCols b (.doNothing f))) =
      .ok (some (bs.flatten.foldl (doNothingRowStep f insCols) ts)) := by
  intro bs
  induction bs with
  | nil => intro ts h1 h2; rfl
  | cons b bs ih =>
    intro ts h1 h2
    have hexec := execInsert_doNothing ts insCols b f h1 h2
    have happly : applyStmt (some ts) (ScriptStmt.insertValues t insCols b (.doNothing f)) =
        .ok (some (b.foldl (doNothingRowStep f insCols) ts)) := by
      simp only [applyStmt, hexec]
      rfl
    have hinv := colNames_foldl_doNothing f insCols b ts
    have hrec := ih (b.foldl (doNothingRowStep f insCols) ts)
      (by rw [hinv.1]; exact h1) (by rw [hinv.2]; exact h2)
    simp only [replayStmts, List.map_cons, List.foldlM_cons, happly]
    show replayStmts (some (b.foldl (doNothingRowStep f insCols) ts)) _ = _
    rw [hrec, List.flatten_cons, List.foldl_append]

theorem all_contains_of_names (insCols : List String) (ts : TableState)
    (hn : colNames ts = insCols) :
    insCols.all (fun c => (colNames ts).contains c) = true := by
  apply List.all_eq_true.mpr
  intro c hc
  rw [hn]
  simpa using hc

theorem replay_inserts_plain (t : String) (insCols : List String) (f : String) :
    ∀ (bs : List (List (List Value))) (ts : TableState),
    colNames ts = insCols → insCols.Nodup → ts.pk = some f →
    (∀ v ∈ bs.flatten, v.length = insCols.length) →
    (∀ r ∈ ts.rows, ∀ v ∈ bs.flatten, ¬ cellVal insCols f r = cellVal insCols f v) →
    bs.flatten.Pairwise (fun a b => ¬ cellVal insCols f a = cellVal insCols f b) →
    replayStmts (some ts) (bs.map (fun b => ScriptStmt.insertValues t insCols b .noClause)) =
      .ok (some { ts with rows := ts.rows ++ bs.flatten }) := by
  intro bs
  induction bs with
  | nil =>
    intro ts hn hnd hpk _ _ _
    simp only [List.map_nil, List.flatten_nil, List.append_nil]
    rfl
  | cons b bs ih =>
    intro ts hn hnd hpk hlen hdisj hpw
    rw [List.flatten_cons] at hlen hdisj hpw
    have hpwparts := List.pairwise_append.mp hpw
    have hexec : execInsert ts insCols b .noClause =
        .ok { ts with rows := ts.rows ++ b } := by
      have h0 : execInsert ts insCols b .noClause = b.foldlM (insertPlainRow insCols) ts := by
        unfold execInsert
        rw [all_contains_of_names insCols ts hn]
        rfl
      rw [h0]
      exact plain_insert_all insCols f b ts hn hnd hpk
        (fun v hv => hlen v (List.mem_append_left _ hv))
        (fun r hr v hv => hdisj r hr v (List.mem_append_left _ hv))
        hpwparts.1
    have happly : applyStmt (some ts) (ScriptStmt.insertValues t insCols b .noClause) =
        .ok (some { ts with rows := ts.rows ++ b }) := by
      simp only [applyStmt, hexec]
      rfl
    have hrec := ih { ts with rows := ts.rows ++ b } hn hnd hpk
      (fun v hv => hlen v (List.mem_append_right _ hv))
      (by
        intro r hr v hv
        rcases List.mem_append.mp hr with hr2 | hr2
        · exact hdisj r hr2 v (List.mem_append_right _ hv)
        · exact hpwparts.2.2 r hr2 v hv)
      hpwparts.2.1
    simp only [replayStmts, List.map_cons, List.foldlM_cons, happly]
    show replayStmts (some { ts with rows := ts.rows ++ b }) _ = _
    rw [hrec]
    simp [List.append_assoc]

theorem replay_inserts_serial (t : String) (base : List (String × SqlAlchemyType))
    (insCols : List String) :
    ∀ (bs : List (List (List Value))) (L : List (List Value)) (ts : TableState),
    ts.cols = base ++ [("id", SqlAlchemyType.Integer)] →
    base.map Prod.fst = insCols → "id" ∉ insCols → insCols.Nodup →
    ts.pk = some "id" → ts.serial = some "id" →
    (∀ v ∈ bs.flatten, v.length = insCols.length) →
    (∀ r ∈ L, r.length = insCols.length) →
    ts.rows = numberRows L 0 →
    replayStmts (some ts) (bs.map (fun b => ScriptStmt.insertValues t insCols b .noClause)) =
      .ok (some { ts with rows := numberRows (L ++ bs.flatten) 0 }) := by
  intro bs
  induction bs with
  | nil =>
    intro L ts h1 h2 h3 h4 h5 h6 h7 h8 h9
    simp only [List.map_nil, List.flatten_nil, List.append_nil, ← h9]
    rfl
  | cons b bs ih =>
    intro L ts h1 h2 h3 h4 h5 h6 h7 h8 h9
    rw [List.flatten_cons] at h7
    have hnames : colNames ts = insCols ++ ["id"] := by
      simp [colNames, h1, h2]
    have hall : insCols.all (fun c => (colNames ts).contains c) = true := by
      apply List.all_eq_true.mpr
      intro c hc
      rw [hnames]
      have hm : c ∈ insCols ++ ["id"] := List.mem_append_left _ hc
      simpa using hm
    have hexec : execInsert ts insCols b .noClause =
        .ok { ts with rows := numberRows (L ++ b) 0 } := by
      have h0 : execInsert ts insCols b .noClause = b.foldlM (insertPlainRow insCols) ts := by
        unfold execInsert
        rw [hall]
        rfl
      rw [h0]
      exact serial_insert_all base insCols b L ts h1 h2 h3 h4 h5 h6
        (fun v hv => h7 v (List.mem_append_left _ hv)) h8 h9
    have happly : applyStmt (some ts) (ScriptStmt.insertValues t insCols b .noClause) =
        .ok (some { ts with rows := numberRows (L ++ b) 0 }) := by
      simp only [applyStmt, hexec]
      rfl
    have hrec := ih (L ++ b) { ts with rows := numberRows (L ++ b) 0 } h1 h2 h3 h4 h5 h6
      (fun v hv => h7 v (List.mem_append_right _ hv))
      (by
        intro r hr
        rcases List.mem_append.mp hr with hr2 | hr2
        · exact h8 r hr2
        · exact h7 r (List.mem_append_left _ hr2))
      rfl
    simp only [replayStmts, List.map_cons, List.foldlM_cons, happly]
    show replayStmts (some { ts with rows := numberRows (L ++ b) 0 }) _ = _
    rw [hrec]
    simp [List.append_assoc]

/-! ### Statement-level replay lemmas -/

theorem applyStmt_drop (db : DB) (t : String) : applyStmt db (.dropTable t) = .ok none := rfl

theorem applyStmt_create_noSerial (t : String) (cols : List (String × SqlAlchemyType))
    (pk : Option String) :
    applyStmt none (.createTable t cols pk false) =
      .ok (some { cols := cols, pk := pk, serial := none, rows := [] }) := by
  simp [applyStmt]

theorem applyStmt_create_serial (t : String) (cols : List (String × SqlAlchemyType))
    (pk : Option String) :
    applyStmt none (.createTable t cols pk true) =
      .ok (some { cols := cols ++ [("id", SqlAlchemyType.Integer)], pk := some "id",
                  serial := some "id", rows := [] }) := by
  simp [applyStmt]

theorem replayStmts_cons (db db2 : DB) (stmt : ScriptStmt) (rest : List ScriptStmt)
    (h : applyStmt db stmt = .ok db2) :
    replayStmts db (stmt :: rest) = replayStmts db2 rest := by
  simp only [replayStmts, List.foldlM_cons, h]
  rfl

/-! ### The generated statements in terms of the frame rows -/

theorem map_proj_dfRecords (df : DataFrame) (hwf : WF df) :
    (dfRecords df).map (fun rec => df.columns.map (fun c => getField rec c)) = df.rows := by
  unfold dfRecords
  rw [List.map_map]
  have hid : df.rows.map ((fun rec => df.columns.map (fun c => getField rec c)) ∘
      (fun row => df.columns.zip row)) = df.rows.map id := by
    apply List.map_congr_left
    intro row hrow
    show df.columns.map (fun c => getField (df.columns.zip row) c) = row
    have : df.columns.map (fun c => getField (df.columns.zip row) c) =
        df.columns.map (fun c => ((df.columns.zip row).lookup c).getD Value.vnull) := rfl
    rw [this]
    exact map_lookup_zip df.columns row hwf.1 (hwf.2 row hrow)
  rw [hid, List.map_id]

theorem insert_batches_proj (df : DataFrame) (t : String) (cc : ConflictClause) (hwf : WF df) :
    (chunks 100 (dfRecords df)).map (fun batch =>
      ScriptStmt.insertValues t df.columns
        (batch.map (fun rec => df.columns.map (fun c => getField rec c))) cc) =
    (chunks 100 df.rows).map (fun b => ScriptStmt.insertValues t df.columns b cc) := by
  have h1 : dfRecords df = df.rows.map (fun row => df.columns.zip row) := rfl
  rw [h1, chunks_map, List.map_map]
  apply List.map_congr_left
  intro b hb
  show ScriptStmt.insertValues t df.columns
      ((b.map (fun row => df.columns.zip row)).map
        (fun rec => df.columns.map (fun c => getField rec c))) cc = _
  rw [List.map_map]
  congr 1
  have : b.map ((fun rec => df.columns.map (fun c => getField rec c)) ∘
      (fun row => df.columns.zip row)) = b.map id := by
    apply List.map_congr_left
    intro row hrow
    have hrowmem : row ∈ df.rows := by
      have : row ∈ (chunks 100 df.rows).flatten := List.mem_flatten.mpr ⟨b, hb, hrow⟩
      rwa [chunks_flatten] at this
    show df.columns.map (fun c => getField (df.columns.zip row) c) = row
    exact map_lookup_zip df.columns row hwf.1 (hwf.2 row hrowmem)
  rw [this, List.map_id]

theorem script_stmts_nuke (df : DataFrame) (t : String) (pk : Option String) (hwf : WF df) :
    script_stmts df t "nuke" pk =
      ScriptStmt.dropTable t ::
      ScriptStmt.createTable t (analyze_dataframe df) pk
        (pk == none && !(df.columns.contains "id")) ::
      (chunks 100 df.rows).map
        (fun b => ScriptStmt.insertValues t df.columns b .noClause) := by
  unfold script_stmts
  have hcc : (match pk with
      | some pkv =>
        if ("nuke" : String) == "upsert" then
          let update_sets := df.columns.filter (fun c => c ≠ pkv)
          if !update_sets.isEmpty then ConflictClause.doUpdate pkv update_sets
          else ConflictClause.doNothing pkv
        else ConflictClause.noClause
      | none => ConflictClause.noClause) = ConflictClause.noClause := by
    cases pk <;> rfl
  simp only [hcc]
  rw [insert_batches_proj df t ConflictClause.noClause hwf]
  rfl

theorem script_stmts_upsert (df : DataFrame) (t f : String) (hwf : WF df) :
    script_stmts df t "upsert" (some f) =
      (chunks 100 df.rows).map (fun b => ScriptStmt.insertValues t df.columns b
        (if !(df.columns.filter (fun c => c ≠ f)).isEmpty
         then ConflictClause.doUpdate f (df.columns.filter (fun c => c ≠ f))
         else ConflictClause.doNothing f)) := by
  show (chunks 100 (dfRecords df)).map (fun batch =>
      ScriptStmt.insertValues t df.columns
        (batch.map (fun rec => df.columns.map (fun c => getField rec c)))
        (if !(df.columns.filter (fun c => c ≠ f)).isEmpty
         then ConflictClause.doUpdate f (df.columns.filter (fun c => c ≠ f))
         else ConflictClause.doNothing f)) = _
  exact insert_batches_proj df t _ hwf

/-! ### Live nuke characterization -/

theorem contains_eq_false_of_not_mem (l : List String) (a : String) (h : a ∉ l) :
    l.contains a = false := by
  cases hc : l.contains a with
  | false => rfl
  | true => exact absurd (by simpa using hc) h

theorem live_nuke_some (df : DataFrame) (t f : String) (hf : f ∈ df.columns)
    (hdist : (df.rows.map (cellVal df.columns f)).Nodup)
    (hnn : Value.vnull ∉ df.rows.map (cellVal df.columns f)) :
    (live_nuke df (analyze_dataframe df) t (some f)).1 =
      { cols := analyze_dataframe df, pk := some f, serial := none, rows := df.rows } := by
  have hnamesbase : colNames { cols := analyze_dataframe df, pk := none, serial := none,
                               rows := df.rows : TableState } = df.columns := by
    simp [colNames, analyze_fst]
  have hkeys : ({ cols := analyze_dataframe df, pk := none, serial := none,
                  rows := df.rows : TableState }).rows.map
      (keyVal { cols := analyze_dataframe df, pk := none, serial := none, rows := df.rows }
        f) = df.rows.map (cellVal df.columns f) := by
    apply List.map_congr_left
    intro r _
    exact keyVal_cellVal _ df.columns f r hnamesbase
  have haddable : pkAddable { cols := analyze_dataframe df, pk := none, serial := none,
                              rows := df.rows } f = true := by
    unfold pkAddable
    rw [hnamesbase, hkeys]
    simp only [Bool.and_eq_true, Bool.not_eq_true]
    refine ⟨⟨by simpa using hf, distinctVals_of_nodup _ hdist⟩, ?_⟩
    simpa using hnn
  have hcond : ((f == "id") && !(df.columns.contains "id")) = false := by
    by_cases hfi : f = "id"
    · subst hfi
      have hct : df.columns.contains "id" = true := by simpa using hf
      simp [hct, hf]
    · have hb : (f == "id") = false := beq_eq_false_iff_ne.mpr hfi
      simp [hb]
  simp only [live_nuke, Option.getD_some]
  rw [hcond]
  simp only [Bool.false_eq_true, reduceIte]
  rw [haddable]
  simp

theorem live_nuke_none (df : DataFrame) (t : String) (hid : "id" ∉ df.columns) :
    (live_nuke df (analyze_dataframe df) t none).1 =
      { cols := analyze_dataframe df ++ [("id", SqlAlchemyType.Integer)], pk := some "id",
        serial := some "id", rows := numberRows df.rows 0 } := by
  have hcf : df.columns.contains "id" = false := contains_eq_false_of_not_mem _ _ hid
  have hcond : ((("id" : String) == "id") && !(df.columns.contains "id")) = true := by
    simp [hcf, hid]
  simp only [live_nuke, Option.getD_none]
  rw [hcond]
  simp

/-! ### Round-trip lemmas: script replay equals the live destination -/

theorem nuke_roundtrip_pk (df : DataFrame) (t f : String) (hwf : WF df) (hf : f ∈ df.columns)
    (hpw : df.rows.Pairwise (fun a b => ¬ cellVal df.columns f a = cellVal df.columns f b))
    (hnn : ∀ r ∈ df.rows, ¬ cellVal df.columns f r = Value.vnull) :
    replayStmts none (script_stmts df t "nuke" (some f)) =
      .ok (some { cols := analyze_dataframe df, pk := some f, serial := none,
                  rows := df.rows }) := by
  rw [script_stmts_nuke df t (some f) hwf]
  have hflag : ((some f : Option String) == none && !(df.columns.contains "id")) = false := by
    simp
  rw [hflag]
  rw [replayStmts_cons none none _ _ (applyStmt_drop none t)]
  rw [replayStmts_cons none _ _ _ (applyStmt_create_noSerial t (analyze_dataframe df) (some f))]
  have hT0names : colNames { cols := analyze_dataframe df, pk := some f, serial := none,
                             rows := ([] : List (List Value)) } = df.columns := by
    simp [colNames, analyze_fst]
  have hrep := replay_inserts_plain t df.columns f (chunks 100 df.rows)
    { cols := analyze_dataframe df, pk := some f, serial := none, rows := [] }
    hT0names hwf.1 rfl
    (by
      intro v hv
      rw [chunks_flatten] at hv
      exact hwf.2 v hv)
    (by intro r hr; simp at hr)
    (by rw [chunks_flatten]; exact hpw)
  rw [hrep]
  rw [chunks_flatten]
  rfl

theorem nuke_roundtrip_serial (df : DataFrame) (t : String) (hwf : WF df)
    (hid : "id" ∉ df.columns) :
    replayStmts none (script_stmts df t "nuke" none) =
      .ok (some { cols := analyze_dataframe df ++ [("id", SqlAlchemyType.Integer)],
                  pk := some "id", serial := some "id", rows := numberRows df.rows 0 }) := by
  rw [script_stmts_nuke df t none hwf]
  have hflag : ((none : Option String) == none && !(df.columns.contains "id")) = true := by
    have hcf : df.columns.contains "id" = false := contains_eq_false_of_not_mem _ _ hid
    simp [hcf, hid]
  rw [hflag]
  rw [replayStmts_cons none none _ _ (applyStmt_drop none t)]
  rw [replayStmts_cons none _ _ _ (applyStmt_create_serial t (analyze_dataframe df) none)]
  have hrep := replay_inserts_serial t (analyze_dataframe df) df.columns (chunks 100 df.rows) []
    { cols := analyze_dataframe df ++ [("id", SqlAlchemyType.Integer)], pk := some "id",
      serial := some "id", rows := [] }
    rfl (analyze_fst df) hid hwf.1 rfl rfl
    (by
      intro v hv
      rw [chunks_flatten] at hv
      exact hwf.2 v hv)
    (by intro r hr; simp at hr)
    rfl
  rw [hrep]
  rw [chunks_flatten]
  rfl

/-! ### Upsert round trip from the freshly nuked table -/

theorem upsert_roundtrip (df : DataFrame) (t f : String) (fails : String → Bool) (hwf : WF df) :
    (live_upsert_existing df (analyze_dataframe df) t f fails
      { cols := analyze_dataframe df, pk := some f, serial := none, rows := df.rows }).2.2 =
        none ∧
    replayStmts (some { cols := analyze_dataframe df, pk := some f, serial := none,
                        rows := df.rows })
      (script_stmts df t "upsert" (some f)) =
      .ok (live_upsert_existing df (analyze_dataframe df) t f fails
        { cols := analyze_dataframe df, pk := some f, serial := none, rows := df.rows }).1 := by
  have hnames : colNames { cols := analyze_dataframe df, pk := some f, serial := none,
                           rows := df.rows : TableState } = df.columns := by
    simp [colNames, analyze_fst]
  have hall := all_contains_of_names df.columns _ hnames
  have hnew : df.columns.filter (fun c =>
      !((colNames { cols := analyze_dataframe df, pk := some f, serial := none,
                    rows := df.rows : TableState }).contains c)) = [] := by
    apply List.filter_eq_nil_iff.mpr
    intro c hc
    rw [hnames]
    simp [hc]
  have hev : schemaEvolve fails (analyze_dataframe df) df
      { cols := analyze_dataframe df, pk := some f, serial := none, rows := df.rows } =
      ({ cols := analyze_dataframe df, pk := some f, serial := none, rows := df.rows }, []) := by
    unfold schemaEvolve
    rw [hnew]
    rfl
  have hcont : ((((some f : Option String)).toList.contains f) = true) := by simp
  rw [script_stmts_upsert df t f hwf]
  simp only [live_upsert_existing, hcont, Bool.not_true, Bool.false_eq_true, reduceIte, hev,
    hnames]
  by_cases hU : (df.columns.filter (fun c => c ≠ f)).isEmpty = true
  · simp only [hU, Bool.not_true, Bool.false_eq_true, reduceIte]
    have hrun := runBatches_doNothing df.columns f df.rows.length (chunks 500 df.rows)
      { cols := analyze_dataframe df, pk := some f, serial := none, rows := df.rows } 0 hall rfl
    have hrep := replay_inserts_doNothing t df.columns f (chunks 100 df.rows)
      { cols := analyze_dataframe df, pk := some f, serial := none, rows := df.rows } hall rfl
    rw [chunks_flatten] at hrun hrep
    refine ⟨by rw [hrun.2]; rfl, ?_⟩
    rw [hrep, hrun.1]
  · have hUf : (df.columns.filter (fun c => c ≠ f)).isEmpty = false := by
      cases h2 : (df.columns.filter (fun c => c ≠ f)).isEmpty with
      | false => rfl
      | true => exact absurd h2 hU
    simp only [hUf, Bool.not_false, reduceIte]
    have hrun := runBatches_doUpdate df.columns f (df.columns.filter (fun c => c ≠ f))
      df.rows.length (chunks 500 df.rows)
      { cols := analyze_dataframe df, pk := some f, serial := none, rows := df.rows } 0 hall rfl
    have hrep := replay_inserts_doUpdate t df.columns f (df.columns.filter (fun c => c ≠ f))
      (chunks 100 df.rows)
      { cols := analyze_dataframe df, pk := some f, serial := none, rows := df.rows } hall rfl
    rw [chunks_flatten] at hrun hrep
    refine ⟨by rw [hrun.2]; rfl, ?_⟩
    rw [hrep, hrun.1]

/-! ### process_data plumbing -/

theorem process_data_export_fields (records : List Record) (j t mode : String) (hE : Bool)
    (pk : Option String) (p : String) (db : DB) (fails : String → Bool) (now : String)
    (h : ∀ f, pk = some f → (mkDataFrame records).columns.contains f = true) :
    (process_data records j t hE mode pk (some p) db fails now).script =
      some (generate_sql_script (prepared records pk) t mode pk now) ∧
    (process_data records j t hE mode pk (some p) db fails now).db = db ∧
    (process_data records j t hE mode pk (some p) db fails now).err = none := by
  cases pk with
  | none => exact ⟨rfl, rfl, rfl⟩
  | some f =>
    have hc := h f rfl
    simp only [process_data, prepStage, hc, reduceIte, prepared]
    exact ⟨by trivial, by trivial, by trivial⟩

theorem process_data_live_nuke (records : List Record) (j t : String) (pk : Option String)
    (db : DB) (fails : String → Bool) (now : String) :
    process_data records j t true "nuke" pk none db fails now = nukeRun records j t pk db := by
  unfold process_data
  cases hp : prepStage records j pk with
  | failed logs e =>
    unfold nukeRun
    rw [hp]
  | ready df logs => rfl

theorem nukeRun_fields (records : List Record) (j t : String) (pk : Option String) (db : DB)
    (h : ∀ f, pk = some f → (mkDataFrame records).columns.contains f = true) :
    (nukeRun records j t pk db).db =
      some (live_nuke (prepared records pk) (analyze_dataframe (prepared records pk)) t pk).1 ∧
    (nukeRun records j t pk db).err = none := by
  cases pk with
  | none => exact ⟨rfl, rfl⟩
  | some f =>
    have hc := h f rfl
    simp only [nukeRun, prepStage, hc, reduceIte, prepared]
    exact ⟨by trivial, by trivial⟩

theorem process_data_upsert_existing (records : List Record) (j t f : String)
    (ts : TableState) (fails : String → Bool) (now : String)
    (hc : (mkDataFrame records).columns.contains f = true) :
    (process_data records j t true "upsert" (some f) none (some ts) fails now).db =
      (live_upsert_existing (prepared records (some f))
        (analyze_dataframe (prepared records (some f))) t f fails ts).1 ∧
    (process_data records j t true "upsert" (some f) none (some ts) fails now).err =
      (live_upsert_existing (prepared records (some f))
        (analyze_dataframe (prepared records (some f))) t f fails ts).2.2 := by
  simp only [process_data, prepStage, hc, reduceIte, prepared]
  exact ⟨by trivial, by trivial⟩

theorem process_data_pk_missing (records : List Record) (j t : String) (hE : Bool)
    (mode : String) (f : String) (ep : Option String) (db : DB) (fails : String → Bool)
    (now : String) (hc : (mkDataFrame records).columns.contains f = false) :
    (process_data records j t hE mode (some f) ep db fails now).db = db ∧
    (process_data records j t hE mode (some f) ep db fails now).script = none ∧
    (process_data records j t hE mode (some f) ep db fails now).err =
      some (.fieldNotFound f) := by
  simp only [process_data, prepStage, hc, Bool.false_eq_true, reduceIte]
  exact ⟨by trivial, by trivial, by trivial⟩

/-! ### prepared-frame facts -/

theorem prepared_none_eq (records : List Record) : prepared records none = mkDataFrame records :=
  rfl

theorem prepared_some_columns (records : List Record) (f : String) :
    (prepared records (some f)).columns = (mkDataFrame records).columns :=
  dupKeyStage_columns (mkDataFrame records) f

theorem prepared_some_rows (records : List Record) (f : String) :
    (prepared records (some f)).rows =
      dedupLastBy (cellVal (mkDataFrame records).columns f) (mkDataFrame records).rows :=
  dupKeyStage_rows (mkDataFrame records) f

theorem prepared_pairwise (records : List Record) (f : String) :
    (prepared records (some f)).rows.Pairwise
      (fun a b => ¬ cellVal (mkDataFrame records).columns f a =
                  cellVal (mkDataFrame records).columns f b) := by
  rw [prepared_some_rows]
  exact dedupLastBy_pairwise _ _

theorem prepared_keys_nodup (records : List Record) (f : String) :
    ((prepared records (some f)).rows.map (cellVal (mkDataFrame records).columns f)).Nodup := by
  exact (prepared_pairwise records f).map _ (fun a b h => h)

theorem mkDataFrame_row_shape (records : List Record) (row : List Value)
    (hrow : row ∈ (mkDataFrame records).rows) :
    ∃ r ∈ records, row = (mkDataFrame records).columns.map (fun c => getField r c) := by
  simp only [mkDataFrame, List.mem_map] at hrow
  rcases hrow with ⟨r, hr, hmap⟩
  exact ⟨r, hr, hmap.symm⟩

theorem prepared_keys_nonnull (records : List Record) (f : String)
    (hf : f ∈ (mkDataFrame records).columns)
    (h : ∀ r ∈ records, getField r f ≠ Value.vnull) :
    ∀ row ∈ (prepared records (some f)).rows,
      ¬ cellVal (mkDataFrame records).columns f row = Value.vnull := by
  intro row hrow
  have hsub : row ∈ (mkDataFrame records).rows := by
    rw [prepared_some_rows] at hrow
    exact (dedupLastBy_sublist _ _).subset hrow
  rcases mkDataFrame_row_shape records row hsub with ⟨r, hr, hshape⟩
  rw [hshape, cellVal_zip_map _ _ _ hf]
  exact h r hr

/-! ### Characterization of the complete live nuke run -/

theorem nuke_run_char_pk (records : List Record) (j t f : String) (db : DB)
    (fails : String → Bool) (now : String)
    (hc : (mkDataFrame records).columns.contains f = true)
    (hnn : ∀ r ∈ records, getField r f ≠ Value.vnull) :
    (process_data records j t true "nuke" (some f) none db fails now).db =
      some { cols := analyze_dataframe (prepared records (some f)), pk := some f,
             serial := none, rows := (prepared records (some f)).rows } ∧
    (process_data records j t true "nuke" (some f) none db fails now).err = none := by
  have hmem : f ∈ (mkDataFrame records).columns := by simpa using hc
  have hDcols := prepared_some_columns records f
  have hfD : f ∈ (prepared records (some f)).columns := by rw [hDcols]; exact hmem
  have hdistD : ((prepared records (some f)).rows.map
      (cellVal (prepared records (some f)).columns f)).Nodup := by
    rw [hDcols]
    exact prepared_keys_nodup records f
  have hnnD : Value.vnull ∉ (prepared records (some f)).rows.map
      (cellVal (prepared records (some f)).columns f) := by
    rw [hDcols]
    intro hmemnull
    rcases List.mem_map.mp hmemnull with ⟨row, hrow, hkey⟩
    exact prepared_keys_nonnull records f hmem hnn row hrow hkey
  have hlive := live_nuke_some (prepared records (some f)) t f hfD hdistD hnnD
  rw [process_data_live_nuke]
  have hnk := nukeRun_fields records j t (some f) db (fun g hg => by
    cases hg
    exact hc)
  refine ⟨?_, hnk.2⟩
  rw [hnk.1, hlive]

theorem nuke_run_char_serial (records : List Record) (j t : String) (db : DB)
    (fails : String → Bool) (now : String) (hid : "id" ∉ recordKeys records) :
    (process_data records j t true "nuke" none none db fails now).db =
      some { cols := analyze_dataframe (mkDataFrame records) ++
                       [("id", SqlAlchemyType.Integer)],
             pk := some "id", serial := some "id",
             rows := numberRows (mkDataFrame records).rows 0 } ∧
    (process_data records j t true "nuke" none none db fails now).err = none := by
  have hid2 : "id" ∉ (mkDataFrame records).columns := hid
  have hlive := live_nuke_none (mkDataFrame records) t hid2
  rw [process_data_live_nuke]
  have hnk := nukeRun_fields records j t none db (fun g hg => by cases hg)
  refine ⟨?_, hnk.2⟩
  rw [hnk.1]
  show some (live_nuke (mkDataFrame records)
    (analyze_dataframe (mkDataFrame records)) t none).1 = _
  rw [hlive]

/-! ### Schema-evolution and error-path lemmas -/

theorem insertPlainRow_ok_fields (insCols : List String) (ts ts2 : TableState)
    (v : List Value) (h : insertPlainRow insCols ts v = .ok ts2) :
    ts2.cols = ts.cols ∧ ts2.pk = ts.pk ∧ ts2.serial = ts.serial := by
  cases hpk : ts.pk with
  | none =>
    simp only [insertPlainRow, hpk] at h
    cases h
    exact ⟨rfl, by simp [hpk], rfl⟩
  | some f =>
    simp only [insertPlainRow, hpk] at h
    by_cases hany : (ts.rows.any fun r => keyVal ts f r ==
        keyVal ts f (buildRow ts insCols v)) = true
    · rw [if_pos hany] at h
      exact Except.noConfusion h
    · rw [if_neg hany] at h
      cases h
      exact ⟨rfl, by simp [hpk], rfl⟩

theorem foldlM_insertPlain_fields (insCols : List String) :
    ∀ (rows : List (List Value)) (ts ts2 : TableState),
    rows.foldlM (insertPlainRow insCols) ts = .ok ts2 →
    ts2.cols = ts.cols ∧ ts2.pk = ts.pk ∧ ts2.serial = ts.serial := by
  intro rows
  induction rows with
  | nil =>
    intro ts ts2 h
    cases h
    exact ⟨rfl, rfl, rfl⟩
  | cons v rest ih =>
    intro ts ts2 h
    rw [List.foldlM_cons] at h
    cases hstep : insertPlainRow insCols ts v with
    | error e =>
      rw [hstep] at h
      cases h
    | ok tsm =>
      rw [hstep] at h
      have hm := insertPlainRow_ok_fields insCols ts tsm v hstep
      have hr := ih tsm ts2 h
      exact ⟨hr.1.trans hm.1, hr.2.1.trans hm.2.1, hr.2.2.trans hm.2.2⟩

theorem execInsert_ok_fields (ts ts2 : TableState) (insCols : List String)
    (rows : List (List Value)) (cc : ConflictClause)
    (h : execInsert ts insCols rows cc = .ok ts2) :
    ts2.cols = ts.cols ∧ ts2.pk = ts.pk ∧ ts2.serial = ts.serial := by
  by_cases hall : (insCols.all fun c => (colNames ts).contains c) = true
  · cases cc with
    | noClause =>
      have he : execInsert ts insCols rows .noClause =
          rows.foldlM (insertPlainRow insCols) ts := by
        unfold execInsert
        rw [hall]
        rfl
      rw [he] at h
      exact foldlM_insertPlain_fields insCols rows ts ts2 h
    | doUpdate f s =>
      by_cases hpk : ts.pk = some f
      · rw [execInsert_doUpdate ts insCols rows f s hall hpk] at h
        cases h
        exact foldl_fields_preserved _ (upsertRowStep_fields f s insCols) rows ts
      · have he : execInsert ts insCols rows (.doUpdate f s) =
            .error .noUniqueConstraint := by
          unfold execInsert
          rw [hall]
          simp only [Bool.not_true, Bool.false_eq_true, reduceIte]
          rw [if_neg hpk]
        rw [he] at h
        exact Except.noConfusion h
    | doNothing f =>
      by_cases hpk : ts.pk = some f
      · rw [execInsert_doNothing ts insCols rows f hall hpk] at h
        cases h
        exact foldl_fields_preserved _ (doNothingRowStep_fields f insCols) rows ts
      · have he : execInsert ts insCols rows (.doNothing f) =
            .error .noUniqueConstraint := by
          unfold execInsert
          rw [hall]
          simp only [Bool.not_true, Bool.false_eq_true, reduceIte]
          rw [if_neg hpk]
        rw [he] at h
        exact Except.noConfusion h
  · have hallf : (insCols.all fun c => (colNames ts).contains c) = false := by
      cases h2 : (insCols.all fun c => (colNames ts).contains c) with
      | false => rfl
      | true => exact absurd h2 hall
    have he : execInsert ts insCols rows cc = .error .unknownColumn := by
      unfold execInsert
      rw [hallf]
      rfl
    rw [he] at h
    exact Except.noConfusion h

theorem runBatches_fields (insCols : List String) (cc : ConflictClause) (total : Nat) :
    ∀ (bs : List (List (List Value))) (ts : TableState) (i : Nat),
    (runBatches insCols cc total ts i bs).1.cols = ts.cols ∧
    (runBatches insCols cc total ts i bs).1.pk = ts.pk ∧
    (runBatches insCols cc total ts i bs).1.serial = ts.serial := by
  intro bs
  induction bs with
  | nil => intro ts i; exact ⟨rfl, rfl, rfl⟩
  | cons b bs ih =>
    intro ts i
    cases hexec : execInsert ts insCols b cc with
    | error e => simp only [runBatches, hexec]; exact ⟨by trivial, by trivial, by trivial⟩
    | ok ts2 =>
      simp only [runBatches, hexec]
      have hm := execInsert_ok_fields ts ts2 insCols b cc hexec
      have hr := ih ts2 (i + 500)
      exact ⟨hr.1.trans hm.1, hr.2.1.trans hm.2.1, hr.2.2.trans hm.2.2⟩

theorem runBatches_error_cons (insCols : List String) (cc : ConflictClause) (total : Nat)
    (b : List (List Value)) (bs : List (List (List Value))) (ts : TableState) (i : Nat)
    (e : ReplayError) (hexec : execInsert ts insCols b cc = .error e) :
    (runBatches insCols cc total ts i (b :: bs)).2.2 = some e := by
  simp only [runBatches, hexec]

theorem execInsert_unknown (ts : TableState) (insCols : List String)
    (rows : List (List Value)) (cc : ConflictClause) (c0 : String)
    (hmem : c0 ∈ insCols) (hnot : c0 ∉ colNames ts) :
    execInsert ts insCols rows cc = .error .unknownColumn := by
  have hallf : (insCols.all fun c => (colNames ts).contains c) = false := by
    cases h2 : (insCols.all fun c => (colNames ts).contains c) with
    | false => rfl
    | true =>
      have := List.all_eq_true.mp h2 c0 hmem
      exact absurd (by simpa using this) hnot
  unfold execInsert
  rw [hallf]
  rfl

theorem chunks_ne_nil (n : Nat) (l : List α) (h : l ≠ []) : chunks n l ≠ [] := by
  intro hc
  have := chunks_flatten n l
  rw [hc] at this
  exact h this.symm

theorem evolve_foldl_char (fails : String → Bool) (A : List (String × SqlAlchemyType)) :
    ∀ (cs : List String) (ts : TableState) (logs : List String),
    ((cs.foldl (evolveStep fails A) (ts, logs)).1.cols =
      ts.cols ++ (cs.filter (fun c => !fails c)).map (fun c => (c, ddlTypeFor A c))) ∧
    (cs.foldl (evolveStep fails A) (ts, logs)).1.pk = ts.pk ∧
    (cs.foldl (evolveStep fails A) (ts, logs)).1.serial = ts.serial ∧
    (∀ c ∈ cs, fails c = true →
      ("[WARN] Failed adding column " ++ c ++ ": rejected by destination") ∈
        (cs.foldl (evolveStep fails A) (ts, logs)).2) ∧
    (∀ x ∈ logs, x ∈ (cs.foldl (evolveStep fails A) (ts, logs)).2) := by
  intro cs
  induction cs with
  | nil =>
    intro ts logs
    refine ⟨by simp, rfl, rfl, by simp, by simp⟩
  | cons c cs ih =>
    intro ts logs
    simp only [List.foldl_cons]
    by_cases hf : fails c = true
    · have hstep : evolveStep fails A (ts, logs) c =
          (ts, logs ++ ["[WARN] Failed adding column " ++ c ++ ": rejected by destination"]) := by
        simp [evolveStep, hf]
      rw [hstep]
      have hrec := ih ts
        (logs ++ ["[WARN] Failed adding column " ++ c ++ ": rejected by destination"])
      refine ⟨?_, hrec.2.1, hrec.2.2.1, ?_, ?_⟩
      · rw [hrec.1, List.filter_cons, if_neg (by simp [hf])]
      · intro c2 hc2 hf2
        rcases List.mem_cons.mp hc2 with hc2 | hc2
        · subst hc2
          exact hrec.2.2.2.2 _ (by simp)
        · exact hrec.2.2.2.1 c2 hc2 hf2
      · intro x hx
        exact hrec.2.2.2.2 x (by simp [hx])
    · have hff : fails c = false := by
        cases h2 : fails c with
        | false => rfl
        | true => exact absurd h2 hf
      have hstep : evolveStep fails A (ts, logs) c =
          ({ ts with cols := ts.cols ++ [(c, ddlTypeFor A c)],
                     rows := ts.rows.map (fun r => r ++ [Value.vnull]) },
           logs ++ ["    -> Added: " ++ c]) := by
        simp [evolveStep, hff]
      rw [hstep]
      have hrec := ih { ts with cols := ts.cols ++ [(c, ddlTypeFor A c)],
                                rows := ts.rows.map (fun r => r ++ [Value.vnull]) }
        (logs ++ ["    -> Added: " ++ c])
      refine ⟨?_, hrec.2.1, hrec.2.2.1, ?_, ?_⟩
      · rw [hrec.1, List.filter_cons, if_pos (by simp [hff])]
        simp [List.append_assoc]
      · intro c2 hc2 hf2
        rcases List.mem_cons.mp hc2 with hc2 | hc2
        · subst hc2
          rw [hf2] at hff
          cases hff
        · exact hrec.2.2.2.1 c2 hc2 hf2
      · intro x hx
        exact hrec.2.2.2.2 x (by simp [hx])

theorem schemaEvolve_char (fails : String → Bool) (A : List (String × SqlAlchemyType))
    (df : DataFrame) (ts : TableState) :
    ((schemaEvolve fails A df ts).1.cols =
      ts.cols ++ ((df.columns.filter (fun c => !((colNames ts).contains c))).filter
        (fun c => !fails c)).map (fun c => (c, ddlTypeFor A c))) ∧
    (schemaEvolve fails A df ts).1.pk = ts.pk ∧
    (schemaEvolve fails A df ts).1.serial = ts.serial ∧
    (∀ c ∈ df.columns.filter (fun c => !((colNames ts).contains c)), fails c = true →
      ("[WARN] Failed adding column " ++ c ++ ": rejected by destination") ∈
        (schemaEvolve fails A df ts).2) := by
  unfold schemaEvolve
  by_cases hemp : (df.columns.filter (fun c => !((colNames ts).contains c))).isEmpty = true
  · rw [if_pos hemp]
    have hnil := List.isEmpty_iff.mp hemp
    rw [hnil]
    refine ⟨by simp, rfl, rfl, by simp⟩
  · rw [if_neg hemp]
    have h := evolve_foldl_char fails A
      (df.columns.filter (fun c => !((colNames ts).contains c))) ts
      ["[*] SCHEMA EVOLUTION: Adding " ++
        toString (df.columns.filter (fun c => !((colNames ts).contains c))).length ++
        " new columns."]
    exact ⟨h.1, h.2.1, h.2.2.1, h.2.2.2.1⟩

theorem process_data_upsert_logs (records : List Record) (j t f : String) (ts : TableState)
    (fails : String → Bool) (now : String)
    (hc : (mkDataFrame records).columns.contains f = true) :
    ∀ x ∈ (live_upsert_existing (prepared records (some f))
        (analyze_dataframe (prepared records (some f))) t f fails ts).2.1,
      x ∈ (process_data records j t true "upsert" (some f) none (some ts) fails now).logs := by
  intro x hx
  simp only [process_data, prepStage, hc, reduceIte, prepared] at *
  simp [hx]

theorem live_upsert_else_proj (df : DataFrame) (A : List (String × SqlAlchemyType))
    (t f : String) (fails : String → Bool) (ts : TableState)
    (hfpk : ts.pk.toList.contains f = true) :
    (live_upsert_existing df A t f fails ts).1 =
      some (runBatches df.columns
        (if !(((colNames (schemaEvolve fails A df ts).1).filter (fun c => c ≠ f)).isEmpty)
         then ConflictClause.doUpdate f
           ((colNames (schemaEvolve fails A df ts).1).filter (fun c => c ≠ f))
         else ConflictClause.doNothing f)
        df.rows.length (schemaEvolve fails A df ts).1 0 (chunks 500 df.rows)).1 ∧
    (live_upsert_existing df A t f fails ts).2.2 =
      (runBatches df.columns
        (if !(((colNames (schemaEvolve fails A df ts).1).filter (fun c => c ≠ f)).isEmpty)
         then ConflictClause.doUpdate f
           ((colNames (schemaEvolve fails A df ts).1).filter (fun c => c ≠ f))
         else ConflictClause.doNothing f)
        df.rows.length (schemaEvolve fails A df ts).1 0
        (chunks 500 df.rows)).2.2.map PhxError.upsertBatchFailed ∧
    (∀ x ∈ (schemaEvolve fails A df ts).2, x ∈ (live_upsert_existing df A t f fails ts).2.1) := by
  simp only [live_upsert_existing, hfpk, Bool.not_true, Bool.false_eq_true, reduceIte]
  refine ⟨by trivial, by trivial, ?_⟩
  intro x hx
  simp [hx]

theorem colNames_evolved (fails : String → Bool) (A : List (String × SqlAlchemyType))
    (df : DataFrame) (ts : TableState) :
    colNames (schemaEvolve fails A df ts).1 =
      colNames ts ++ ((df.columns.filter (fun c => !((colNames ts).contains c))).filter
        (fun c => !fails c)) := by
  unfold colNames
  rw [(schemaEvolve_char fails A df ts).1, List.map_append, List.map_map]
  congr 1
  exact List.map_id _

theorem dedupKeepFirst_mem_aux : ∀ (l : List Value) (acc : List Value) (v : Value),
    (v ∈ l.foldl (fun acc v => if acc.contains v then acc else acc ++ [v]) acc ↔
     v ∈ acc ∨ v ∈ l) := by
  intro l
  induction l with
  | nil => intro acc v; simp
  | cons x xs ih =>
    intro acc v
    simp only [List.foldl_cons]
    by_cases hc : acc.contains x = true
    · rw [if_pos hc]
      rw [ih]
      constructor
      · rintro (h | h)
        · exact Or.inl h
        · exact Or.inr (List.mem_cons_of_mem x h)
      · rintro (h | h)
        · exact Or.inl h
        · rcases List.mem_cons.mp h with h | h
          · subst h
            exact Or.inl (by simpa using hc)
          · exact Or.inr h
    · rw [if_neg hc]
      rw [ih]
      constructor
      · rintro (h | h)
        · rcases List.mem_append.mp h with h | h
          · exact Or.inl h
          · simp only [List.mem_singleton] at h
            subst h
            exact Or.inr (List.mem_cons_self _ xs)
        · exact Or.inr (List.mem_cons_of_mem x h)
      · rintro (h | h)
        · exact Or.inl (List.mem_append_left _ h)
        · rcases List.mem_cons.mp h with h | h
          · subst h
            exact Or.inl (List.mem_append_right _ (by simp))
          · exact Or.inr h

theorem dedupKeepFirst_mem (l : List Value) (v : Value) :
    v ∈ dedupKeepFirst l ↔ v ∈ l := by
  rw [dedupKeepFirst, dedupKeepFirst_mem_aux]
  simp

theorem dup_cleaned_log (df : DataFrame) (f : String)
    (hdup : (df.rows.filter (fun r => 2 ≤ df.rows.countP
      (fun s => cellVal df.columns f s == cellVal df.columns f r))).isEmpty = false) :
    ("[!] Cleaned: " ++ toString (df.rows.length -
        (dedupLastBy (cellVal df.columns f) df.rows).length) ++
      " duplicate rows removed.") ∈ (dupKeyStage df f).2 := by
  simp only [dupKeyStage]
  rw [hdup]
  simp only [Bool.false_eq_true, reduceIte]
  simp

theorem Value.eq_vnull_of_isNull (v : Value) (h : v.isNull = true) : v = Value.vnull := by
  cases v <;> simp [Value.isNull] at h ⊢

theorem inferColumnType_all_null (vs : List Value) (h : ∀ v ∈ vs, v.isNull = true) :
    inferColumnType vs = SqlAlchemyType.String := by
  have hdrop : pdDropna vs = [] := by
    apply List.filter_eq_nil_iff.mpr
    intro v hv
    simp [h v hv]
  have hS : ((pdDropna vs).take 100).any Value.isStructured = false := by
    rw [hdrop]
    rfl
  have hI : (!vs.isEmpty && vs.all Value.isInt) = false := by
    cases vs with
    | nil => rfl
    | cons a l =>
      have ha := Value.eq_vnull_of_isNull a (h a (List.mem_cons_self a l))
      subst ha
      simp [Value.isInt]
  have hF : (vs.any (fun v => v.isInt || v.isFloat) &&
      vs.all (fun v => v.isInt || v.isFloat || v.isNull)) = false := by
    have hany : vs.any (fun v => v.isInt || v.isFloat) = false := by
      apply List.any_eq_false.mpr
      intro v hv
      have := Value.eq_vnull_of_isNull v (h v hv)
      subst this
      decide
    rw [hany]
    rfl
  have hB : (!vs.isEmpty && vs.all Value.isBool) = false := by
    cases vs with
    | nil => rfl
    | cons a l =>
      have ha := Value.eq_vnull_of_isNull a (h a (List.mem_cons_self a l))
      subst ha
      simp [Value.isBool]
  simp [inferColumnType, colDtype, hS, hI, hF, hB]

/-! ### DO NOTHING and DO UPDATE row-level facts -/

theorem foldl_doNothing_rows_extend (f : String) (insCols : List String) :
    ∀ (rows : List (List Value)) (ts : TableState),
    ∃ ext, (rows.foldl (doNothingRowStep f insCols) ts).rows = ts.rows ++ ext := by
  intro rows
  induction rows with
  | nil =>
    intro ts
    exact ⟨[], by simp⟩
  | cons v rows ih =>
    intro ts
    simp only [List.foldl_cons]
    rcases ih (doNothingRowStep f insCols ts v) with ⟨ext, hext⟩
    by_cases hc : (ts.rows.any fun r =>
        keyVal ts f r == keyVal ts f (buildRow ts insCols v)) = true
    · refine ⟨ext, ?_⟩
      rw [hext]
      simp [doNothingRowStep, hc]
    · refine ⟨buildRow ts insCols v :: ext, ?_⟩
      rw [hext]
      simp [doNothingRowStep, hc]

theorem lookup_zip_not_mem (vals : List Value) (c : String) :
    ∀ insCols : List String, ∀ vs : List Value, c ∉ insCols →
    (insCols.zip vs).lookup c = none := by
  intro insCols
  induction insCols with
  | nil =>
    intro vs _
    simp
  | cons k ks ih =>
    intro vs h
    cases vs with
    | nil => simp
    | cons v vv =>
      have hne : c ≠ k := fun he => h (he ▸ List.mem_cons_self k ks)
      rw [List.zip_cons_cons, lookup_cons_ne c k v _ hne]
      exact ih vv (fun hm => h (List.mem_cons_of_mem k hm))

theorem cellVal_merged (setCols insCols : List String) (vals : List Value) (c : String) :
    ∀ (cols : List (String × SqlAlchemyType)) (old : List Value),
    old.length = cols.length → c ∈ cols.map Prod.fst → setCols.contains c = true →
    cellVal (cols.map Prod.fst) c ((cols.zip old).map (fun p =>
      if setCols.contains p.1.1 then ((insCols.zip vals).lookup p.1.1).getD Value.vnull
      else p.2)) =
      ((insCols.zip vals).lookup c).getD Value.vnull := by
  intro cols
  induction cols with
  | nil =>
    intro old _ hmem _
    simp at hmem
  | cons cd cols ih =>
    intro old hlen hmem hset
    cases old with
    | nil => simp at hlen
    | cons v old =>
      simp only [List.length_cons] at hlen
      by_cases he : c = cd.1
      · subst he
        simp [cellVal, List.lookup, hset]
        intro hns
        exact absurd (by simpa using hset) hns
      · have hmem2 : c ∈ cols.map Prod.fst := by
          simp only [List.map_cons, List.mem_cons] at hmem
          rcases hmem with h1 | h1
          · exact absurd h1 he
          · exact h1
        simp only [List.zip_cons_cons, List.map_cons, cellVal]
        rw [lookup_cons_ne c cd.1 _ _ he]
        have := ih old (by omega) hmem2 hset
        simp only [cellVal] at this
        exact this

theorem getD_set_self (l : List (List Value)) (i : Nat) (m : List Value)
    (h : i < l.length) : (l.set i m).getD i [] = m := by
  rw [List.getD, List.get?_eq_getElem?, List.getElem?_set_self h]
  rfl

/-! ## Claim theorems -/

/-- C1 (corrected): the Live Sink and the Script Sink are semantically
equivalent on the cases that survive the counterexample: for a Nuke request
whose chosen primary-key column exists and is never null, and for a Nuke
request with no chosen key and no `id` column, replaying the rendered
script against an empty destination reproduces exactly the live final table
(schema, primary key, and rows); and for an Upsert request run against the
freshly Nuked table of the same request, live execution and render-plus-
replay produce identical final contents.  The rendered text is exactly the
rendering of the replayed statements. -/
theorem c1_sink_equivalence_amended
    (records : List Record) (j t f p now : String) (db : DB) (fails : String → Bool) :
    (((mkDataFrame records).columns.contains f = true ∧
      ∀ r ∈ records, getField r f ≠ Value.vnull) →
      ((process_data records j t true "nuke" (some f) none db fails now).err = none ∧
       (process_data records j t false "nuke" (some f) (some p) db fails now).script =
         some (generate_sql_script (prepared records (some f)) t "nuke" (some f) now) ∧
       replayStmts none (script_stmts (prepared records (some f)) t "nuke" (some f)) =
         .ok (process_data records j t true "nuke" (some f) none db fails now).db ∧
       (process_data records j t true "upsert" (some f) none
         (process_data records j t true "nuke" (some f) none db fails now).db
         fails now).err = none ∧
       replayStmts (process_data records j t true "nuke" (some f) none db fails now).db
         (script_stmts (prepared records (some f)) t "upsert" (some f)) =
         .ok (process_data records j t true "upsert" (some f) none
           (process_data records j t true "nuke" (some f) none db fails now).db
           fails now).db)) ∧
    (("id" ∉ recordKeys records) →
      ((process_data records j t true "nuke" none none db fails now).err = none ∧
       (process_data records j t false "nuke" none (some p) db fails now).script =
         some (generate_sql_script (prepared records none) t "nuke" none now) ∧
       replayStmts none (script_stmts (prepared records none) t "nuke" none) =
         .ok (process_data records j t true "nuke" none none db fails now).db)) := by
  constructor
  · rintro ⟨hc, hnn⟩
    have hmem : f ∈ (mkDataFrame records).columns := by simpa using hc
    have hwfD := prepared_wf records (some f)
    have hDcols := prepared_some_columns records f
    have hchar := nuke_run_char_pk records j t f db fails now hc hnn
    have hfD : f ∈ (prepared records (some f)).columns := by rw [hDcols]; exact hmem
    have hpwD : (prepared records (some f)).rows.Pairwise
        (fun a b => ¬ cellVal (prepared records (some f)).columns f a =
                    cellVal (prepared records (some f)).columns f b) := by
      rw [hDcols]
      exact prepared_pairwise records f
    have hnnD : ∀ r ∈ (prepared records (some f)).rows,
        ¬ cellVal (prepared records (some f)).columns f r = Value.vnull := by
      rw [hDcols]
      exact prepared_keys_nonnull records f hmem hnn
    have hrt := upsert_roundtrip (prepared records (some f)) t f fails hwfD
    have hups := process_data_upsert_existing records j t f
      { cols := analyze_dataframe (prepared records (some f)), pk := some f, serial := none,
        rows := (prepared records (some f)).rows } fails now hc
    refine ⟨hchar.2, (process_data_export_fields records j t "nuke" false (some f) p db fails
      now (fun g hg => by cases hg; exact hc)).1, ?_, ?_, ?_⟩
    · rw [hchar.1]
      exact nuke_roundtrip_pk (prepared records (some f)) t f hwfD hfD hpwD hnnD
    · rw [hchar.1, hups.2]
      exact hrt.1
    · rw [hchar.1, hups.1]
      exact hrt.2
  · intro hid
    have hchar := nuke_run_char_serial records j t db fails now hid
    refine ⟨hchar.2, (process_data_export_fields records j t "nuke" false none p db fails
      now (fun g hg => by cases hg)).1, ?_⟩
    rw [hchar.1]
    exact nuke_roundtrip_serial (mkDataFrame records) t (mkDataFrame_wf records) hid

/-- C1 counterexample: the claim as stated fails.  With no chosen key and an
`id` column present, the live Nuke path sets PRIMARY KEY on `id` while the
replayed script creates the table without any primary key; and for Append
and Upsert requests, replaying the script against an empty destination
fails (the INSERT targets a non-existent table) while the live path creates
the table and succeeds. -/
theorem c1_counterexample :
    ((process_data [[("id", Value.vint 1)]] "in.json" "t" true "nuke" none none none
        (fun _ => false) "now").db =
      some { cols := [("id", SqlAlchemyType.BigInteger)], pk := some "id", serial := none,
             rows := [[Value.vint 1]] } ∧
     replayStmts none (script_stmts (prepared [[("id", Value.vint 1)]] none) "t" "nuke" none) =
       Except.ok (some
        { cols := [("id", SqlAlchemyType.BigInteger)], pk := none, serial := none,
          rows := [[Value.vint 1]] }) ∧
     (some "id" : Option String) ≠ none) ∧
    (replayStmts none (script_stmts (prepared [[("id", Value.vint 1)]] none) "t" "append"
        none) = Except.error ReplayError.noTable ∧
     (process_data [[("id", Value.vint 1)]] "in.json" "t" true "append" none none none
        (fun _ => false) "now").err = none) ∧
    (replayStmts none (script_stmts (prepared [[("id", Value.vint 1)]] (some "id")) "t"
        "upsert" (some "id")) = Except.error ReplayError.noTable ∧
     (process_data [[("id", Value.vint 1)]] "in.json" "t" true "upsert" (some "id") none none
        (fun _ => false) "now").err = none) := by
  refine ⟨⟨by decide, by decide, by decide⟩, ⟨by decide, by decide⟩, by decide, by decide⟩

/-- C1 witness: the amended equivalence applied at concrete inputs. -/
theorem c1_sink_equivalence_amended_witness :
    ((process_data [[("id", Value.vint 1), ("v", Value.vstr "x")]] "in.json" "t" true "nuke"
        (some "id") none none (fun _ => false) "now").err = none ∧
     (process_data [[("id", Value.vint 1), ("v", Value.vstr "x")]] "in.json" "t" false "nuke"
        (some "id") (some "out.sql") none (fun _ => false) "now").script =
       some (generate_sql_script
         (prepared [[("id", Value.vint 1), ("v", Value.vstr "x")]] (some "id")) "t" "nuke"
         (some "id") "now") ∧
     replayStmts none (script_stmts
         (prepared [[("id", Value.vint 1), ("v", Value.vstr "x")]] (some "id")) "t" "nuke"
         (some "id")) =
       .ok (process_data [[("id", Value.vint 1), ("v", Value.vstr "x")]] "in.json" "t" true
         "nuke" (some "id") none none (fun _ => false) "now").db ∧
     (process_data [[("id", Value.vint 1), ("v", Value.vstr "x")]] "in.json" "t" true "upsert"
        (some "id") none
        (process_data [[("id", Value.vint 1), ("v", Value.vstr "x")]] "in.json" "t" true
          "nuke" (some "id") none none (fun _ => false) "now").db
        (fun _ => false) "now").err = none ∧
     replayStmts
        (process_data [[("id", Value.vint 1), ("v", Value.vstr "x")]] "in.json" "t" true
          "nuke" (some "id") none none (fun _ => false) "now").db
        (script_stmts (prepared [[("id", Value.vint 1), ("v", Value.vstr "x")]] (some "id"))
          "t" "upsert" (some "id")) =
       .ok (process_data [[("id", Value.vint 1), ("v", Value.vstr "x")]] "in.json" "t" true
         "upsert" (some "id") none
         (process_data [[("id", Value.vint 1), ("v", Value.vstr "x")]] "in.json" "t" true
           "nuke" (some "id") none none (fun _ => false) "now").db
         (fun _ => false) "now").db) ∧
    ((process_data [[("a", Value.vint 1)]] "in.json" "t" true "nuke" none none none
        (fun _ => false) "now").err = none ∧
     (process_data [[("a", Value.vint 1)]] "in.json" "t" false "nuke" none (some "out.sql")
        none (fun _ => false) "now").script =
       some (generate_sql_script (prepared [[("a", Value.vint 1)]] none) "t" "nuke" none
         "now") ∧
     replayStmts none (script_stmts (prepared [[("a", Value.vint 1)]] none) "t" "nuke" none) =
       .ok (process_data [[("a", Value.vint 1)]] "in.json" "t" true "nuke" none none none
         (fun _ => false) "now").db) :=
  ⟨(c1_sink_equivalence_amended [[("id", Value.vint 1), ("v", Value.vstr "x")]] "in.json" "t"
      "id" "out.sql" "now" none (fun _ => false)).1 ⟨by decide, by decide⟩,
   (c1_sink_equivalence_amended [[("a", Value.vint 1)]] "in.json" "t" "id" "out.sql" "now"
      none (fun _ => false)).2 (by decide)⟩

/-- C7 (corrected): schema evolution is additive-only — every pre-run
column survives with its original type, the added columns (exactly the
non-failing missing incoming columns, with their inferred types) are
appended after them — a failing AddColumn is logged as a warning and
skipped for the pass, and the sync completes when every AddColumn
succeeds.  But contrary to the original claim, after a failed AddColumn
the sync does not continue to a successful finish: the batch upsert still
references the skipped column, so the run aborts whenever any AddColumn
failed and records remain. -/
theorem c7_schema_evolution_amended (records : List Record) (j t f : String)
    (ts : TableState) (fails : String → Bool) (now : String)
    (hc : (mkDataFrame records).columns.contains f = true)
    (hpk : ts.pk = some f) :
    (∃ ts2, (process_data records j t true "upsert" (some f) none (some ts) fails now).db =
        some ts2 ∧
        ts2.cols = ts.cols ++
          (((prepared records (some f)).columns.filter
              (fun c => !((colNames ts).contains c))).filter (fun c => !fails c)).map
            (fun c => (c, ddlTypeFor (analyze_dataframe (prepared records (some f))) c))) ∧
    (∀ c ∈ (prepared records (some f)).columns.filter (fun c => !((colNames ts).contains c)),
      fails c = true →
        ("[WARN] Failed adding column " ++ c ++ ": rejected by destination") ∈
          (process_data records j t true "upsert" (some f) none (some ts) fails now).logs) ∧
    ((∀ c ∈ (prepared records (some f)).columns.filter (fun c => !((colNames ts).contains c)),
        fails c = false) →
      (process_data records j t true "upsert" (some f) none (some ts) fails now).err =
        none) ∧
    (∀ c0 ∈ (prepared records (some f)).columns.filter (fun c => !((colNames ts).contains c)),
      fails c0 = true → (prepared records (some f)).rows ≠ [] →
      (process_data records j t true "upsert" (some f) none (some ts) fails now).err ≠
        none) := by
  have hfpk : ts.pk.toList.contains f = true := by simp [hpk]
  have hproj := live_upsert_else_proj (prepared records (some f))
    (analyze_dataframe (prepared records (some f))) t f fails ts hfpk
  have hplumb := process_data_upsert_existing records j t f ts fails now hc
  have hchar := schemaEvolve_char fails (analyze_dataframe (prepared records (some f)))
    (prepared records (some f)) ts
  have hnames2 := colNames_evolved fails (analyze_dataframe (prepared records (some f)))
    (prepared records (some f)) ts
  refine ⟨?_, ?_, ?_, ?_⟩
  · refine ⟨_, by rw [hplumb.1, hproj.1], ?_⟩
    have hrbf := runBatches_fields (prepared records (some f)).columns
      (if !(((colNames (schemaEvolve fails (analyze_dataframe (prepared records (some f)))
              (prepared records (some f)) ts).1).filter (fun c => c ≠ f)).isEmpty)
       then ConflictClause.doUpdate f
         ((colNames (schemaEvolve fails (analyze_dataframe (prepared records (some f)))
             (prepared records (some f)) ts).1).filter (fun c => c ≠ f))
       else ConflictClause.doNothing f)
      (prepared records (some f)).rows.length
      (chunks 500 (prepared records (some f)).rows)
      (schemaEvolve fails (analyze_dataframe (prepared records (some f)))
        (prepared records (some f)) ts).1 0
    rw [hrbf.1, hchar.1]
  · intro c hcm hfail
    exact process_data_upsert_logs records j t f ts fails now hc _
      (hproj.2.2 _ (hchar.2.2.2 c hcm hfail))
  · intro hok
    have hfilself : ((prepared records (some f)).columns.filter
        (fun c => !((colNames ts).contains c))).filter (fun c => !fails c) =
        (prepared records (some f)).columns.filter (fun c => !((colNames ts).contains c)) := by
      apply List.filter_eq_self.mpr
      intro c hcm
      rw [hok c hcm]
      rfl
    have hall : ((prepared records (some f)).columns.all
        (fun c => (colNames (schemaEvolve fails
          (analyze_dataframe (prepared records (some f)))
          (prepared records (some f)) ts).1).contains c)) = true := by
      apply List.all_eq_true.mpr
      intro c hcm
      rw [hnames2, hfilself]
      by_cases hin : (colNames ts).contains c = true
      · have : c ∈ colNames ts := by simpa using hin
        simpa using Or.inl this
      · have hinf : (colNames ts).contains c = false := by
          cases h2 : (colNames ts).contains c with
          | false => rfl
          | true => exact absurd h2 hin
        have : c ∈ (prepared records (some f)).columns.filter
            (fun c => !((colNames ts).contains c)) := by
          apply List.mem_filter.mpr
          exact ⟨hcm, by rw [hinf]; rfl⟩
        simpa using Or.inr this
    have hpk2 : (schemaEvolve fails (analyze_dataframe (prepared records (some f)))
        (prepared records (some f)) ts).1.pk = some f := by
      rw [hchar.2.1, hpk]
    rw [hplumb.2, hproj.2.1]
    by_cases hU : (((colNames (schemaEvolve fails
        (analyze_dataframe (prepared records (some f)))
        (prepared records (some f)) ts).1).filter (fun c => c ≠ f)).isEmpty) = true
    · rw [hU]
      simp only [Bool.not_true, Bool.false_eq_true, reduceIte]
      rw [(runBatches_doNothing (prepared records (some f)).columns f
        (prepared records (some f)).rows.length
        (chunks 500 (prepared records (some f)).rows) _ 0 hall hpk2).2]
      rfl
    · have hUf : (((colNames (schemaEvolve fails
          (analyze_dataframe (prepared records (some f)))
          (prepared records (some f)) ts).1).filter (fun c => c ≠ f)).isEmpty) = false := by
        cases h2 : (((colNames (schemaEvolve fails
            (analyze_dataframe (prepared records (some f)))
            (prepared records (some f)) ts).1).filter (fun c => c ≠ f)).isEmpty) with
        | false => rfl
        | true => exact absurd h2 hU
      rw [hUf]
      simp only [Bool.not_false, reduceIte]
      rw [(runBatches_doUpdate (prepared records (some f)).columns f _
        (prepared records (some f)).rows.length
        (chunks 500 (prepared records (some f)).rows) _ 0 hall hpk2).2]
      rfl
  · intro c0 hc0 hfail hrows
    have hmemD : c0 ∈ (prepared records (some f)).columns := (List.mem_filter.mp hc0).1
    have hnotin : c0 ∉ colNames (schemaEvolve fails
        (analyze_dataframe (prepared records (some f)))
        (prepared records (some f)) ts).1 := by
      rw [hnames2]
      intro hmm
      rcases List.mem_append.mp hmm with hmm | hmm
      · have := (List.mem_filter.mp hc0).2
        have hct : (colNames ts).contains c0 = true := by simpa using hmm
        rw [hct] at this
        simp at this
      · have := (List.mem_filter.mp hmm).2
        rw [hfail] at this
        simp at this
    cases hch : chunks 500 (prepared records (some f)).rows with
    | nil => exact absurd hch (chunks_ne_nil 500 _ hrows)
    | cons b bs =>
      have hexec := execInsert_unknown (schemaEvolve fails
          (analyze_dataframe (prepared records (some f)))
          (prepared records (some f)) ts).1 (prepared records (some f)).columns b
        (if !(((colNames (schemaEvolve fails
              (analyze_dataframe (prepared records (some f)))
              (prepared records (some f)) ts).1).filter (fun c => c ≠ f)).isEmpty)
         then ConflictClause.doUpdate f
           ((colNames (schemaEvolve fails (analyze_dataframe (prepared records (some f)))
               (prepared records (some f)) ts).1).filter (fun c => c ≠ f))
         else ConflictClause.doNothing f)
        c0 hmemD hnotin
      rw [hplumb.2, hproj.2.1, hch]
      rw [runBatches_error_cons _ _ _ b bs _ 0 ReplayError.unknownColumn hexec]
      simp

/-- C7 counterexample: with an existing table holding only the key column,
an incoming record introducing a new column `tag`, and a destination that
rejects the AddColumn for `tag`, the failure is logged as a warning and
the column is skipped — but the sync then aborts at the first upsert batch
(the INSERT references the skipped column) instead of continuing. -/
theorem c7_counterexample :
    (process_data [[("id", Value.vint 1), ("tag", Value.vstr "x")]] "in.json" "t" true
        "upsert" (some "id") none
        (some { cols := [("id", SqlAlchemyType.BigInteger)], pk := some "id", serial := none,
                rows := [] })
        (fun c => c == "tag") "now").err =
      some (PhxError.upsertBatchFailed ReplayError.unknownColumn) ∧
    ("[WARN] Failed adding column " ++ "tag" ++ ": rejected by destination") ∈
      (process_data [[("id", Value.vint 1), ("tag", Value.vstr "x")]] "in.json" "t" true
        "upsert" (some "id") none
        (some { cols := [("id", SqlAlchemyType.BigInteger)], pk := some "id", serial := none,
                rows := [] })
        (fun c => c == "tag") "now").logs := by
  exact ⟨by decide, by decide⟩

/-- C7 witness: the amended claim applied at concrete inputs — the failing
AddColumn is warned about and the run aborts; with no AddColumn failure
the same run completes. -/
theorem c7_schema_evolution_amended_witness :
    (process_data [[("id", Value.vint 1), ("tag", Value.vstr "x")]] "in.json" "t" true
        "upsert" (some "id") none
        (some { cols := [("id", SqlAlchemyType.BigInteger)], pk := some "id", serial := none,
                rows := [] })
        (fun c => c == "tag") "now").err ≠ none ∧
    ("[WARN] Failed adding column " ++ "tag" ++ ": rejected by destination") ∈
      (process_data [[("id", Value.vint 1), ("tag", Value.vstr "x")]] "in.json" "t" true
        "upsert" (some "id") none
        (some { cols := [("id", SqlAlchemyType.BigInteger)], pk := some "id", serial := none,
                rows := [] })
        (fun c => c == "tag") "now").logs ∧
    (process_data [[("id", Value.vint 1), ("tag", Value.vstr "x")]] "in.json" "t" true
        "upsert" (some "id") none
        (some { cols := [("id", SqlAlchemyType.BigInteger)], pk := some "id", serial := none,
                rows := [] })
        (fun _ => false) "now").err = none :=
  ⟨(c7_schema_evolution_amended [[("id", Value.vint 1), ("tag", Value.vstr "x")]] "in.json"
      "t" "id"
      { cols := [("id", SqlAlchemyType.BigInteger)], pk := some "id", serial := none,
        rows := [] }
      (fun c => c == "tag") "now" (by decide) (by decide)).2.2.2 "tag" (by decide) (by decide)
      (by decide),
   (c7_schema_evolution_amended [[("id", Value.vint 1), ("tag", Value.vstr "x")]] "in.json"
      "t" "id"
      { cols := [("id", SqlAlchemyType.BigInteger)], pk := some "id", serial := none,
        rows := [] }
      (fun c => c == "tag") "now" (by decide) (by decide)).2.1 "tag" (by decide) (by decide),
   (c7_schema_evolution_amended [[("id", Value.vint 1), ("tag", Value.vstr "x")]] "in.json"
      "t" "id"
      { cols := [("id", SqlAlchemyType.BigInteger)], pk := some "id", serial := none,
        rows := [] }
      (fun _ => false) "now" (by decide) (by decide)).2.2.1 (by decide)⟩

/-- C2 (confirmed, spec-modelled): under the strict duplicate policy —
modelled from the spec, since src/ only carries the last-wins variant —
any input whose rows share a primary-key value yields a DuplicateKeyError
that names the key field and reports between one and five example
duplicated key values, each of which really is duplicated. -/
theorem c2_strict_duplicate_policy_aborts (records : List Record) (f : String)
    (h : ∃ v : Value, 2 ≤ (mkDataFrame records).rows.countP
        (fun r => cellVal (mkDataFrame records).columns f r == v)) :
    ∃ e : DuplicateKeyError,
      strict_duplicate_policy (mkDataFrame records) f = some e ∧
      e.field = f ∧ e.examples ≠ [] ∧ e.examples.length ≤ 5 ∧
      ∀ v ∈ e.examples, 2 ≤ (mkDataFrame records).rows.countP
        (fun r => cellVal (mkDataFrame records).columns f r == v) := by
  rcases h with ⟨v, hv⟩
  have hpos : 0 < (mkDataFrame records).rows.countP
      (fun r => cellVal (mkDataFrame records).columns f r == v) := by omega
  rcases List.countP_pos_iff.mp hpos with ⟨r, hr, hkr⟩
  have hkeq : cellVal (mkDataFrame records).columns f r = v := by simpa using hkr
  have hvmem : v ∈ (mkDataFrame records).rows.map
      (cellVal (mkDataFrame records).columns f) :=
    List.mem_map.mpr ⟨r, hr, hkeq⟩
  have hmemdup : v ∈ (dedupKeepFirst ((mkDataFrame records).rows.map
      (fun row => cellVal (mkDataFrame records).columns f row))).filter
      (fun v => 2 ≤ (mkDataFrame records).rows.countP
        (fun r => cellVal (mkDataFrame records).columns f r == v)) := by
    apply List.mem_filter.mpr
    refine ⟨(dedupKeepFirst_mem _ v).mpr hvmem, by simpa using hv⟩
  have hne : (dedupKeepFirst ((mkDataFrame records).rows.map
      (fun row => cellVal (mkDataFrame records).columns f row))).filter
      (fun v => 2 ≤ (mkDataFrame records).rows.countP
        (fun r => cellVal (mkDataFrame records).columns f r == v)) ≠ [] :=
    List.ne_nil_of_mem hmemdup
  have hnemp : ((dedupKeepFirst ((mkDataFrame records).rows.map
      (fun row => cellVal (mkDataFrame records).columns f row))).filter
      (fun v => 2 ≤ (mkDataFrame records).rows.countP
        (fun r => cellVal (mkDataFrame records).columns f r == v))).isEmpty = false := by
    cases hh : ((dedupKeepFirst ((mkDataFrame records).rows.map
        (fun row => cellVal (mkDataFrame records).columns f row))).filter
        (fun v => 2 ≤ (mkDataFrame records).rows.countP
          (fun r => cellVal (mkDataFrame records).columns f r == v))).isEmpty with
    | false => rfl
    | true => exact absurd (List.isEmpty_iff.mp hh) hne
  refine ⟨{ field := f,
            examples := ((dedupKeepFirst ((mkDataFrame records).rows.map
              (fun row => cellVal (mkDataFrame records).columns f row))).filter
              (fun v => 2 ≤ (mkDataFrame records).rows.countP
                (fun r => cellVal (mkDataFrame records).columns f r == v))).take 5 },
         ?_, rfl, ?_, ?_, ?_⟩
  · simp only [strict_duplicate_policy]
    rw [hnemp]
    rfl
  · intro htake
    have h5 : (5 : Nat) = 0 ∨ (dedupKeepFirst ((mkDataFrame records).rows.map
        (fun row => cellVal (mkDataFrame records).columns f row))).filter
        (fun v => 2 ≤ (mkDataFrame records).rows.countP
          (fun r => cellVal (mkDataFrame records).columns f r == v)) = [] :=
      List.take_eq_nil_iff.mp htake
    rcases h5 with h5 | h5
    · cases h5
    · exact hne h5
  · exact List.length_take_le 5 _
  · intro w hw
    have hwfil := List.mem_of_mem_take hw
    have := (List.mem_filter.mp hwfil).2
    simpa using this

/-- C2 witness: Scenario C — two records with id 1 under the strict policy
produce a DuplicateKeyError naming id with example value 1. -/
theorem c2_strict_duplicate_policy_aborts_witness :
    (∃ e : DuplicateKeyError,
      strict_duplicate_policy
        (mkDataFrame [[("id", Value.vint 1), ("v", Value.vstr "x")],
                      [("id", Value.vint 1), ("v", Value.vstr "y")]]) "id" = some e ∧
      e.field = "id" ∧ e.examples ≠ [] ∧ e.examples.length ≤ 5 ∧
      ∀ v ∈ e.examples, 2 ≤ (mkDataFrame [[("id", Value.vint 1), ("v", Value.vstr "x")],
                      [("id", Value.vint 1), ("v", Value.vstr "y")]]).rows.countP
        (fun r => cellVal (mkDataFrame [[("id", Value.vint 1), ("v", Value.vstr "x")],
                      [("id", Value.vint 1), ("v", Value.vstr "y")]]).columns "id" r == v)) ∧
    strict_duplicate_policy
        (mkDataFrame [[("id", Value.vint 1), ("v", Value.vstr "x")],
                      [("id", Value.vint 1), ("v", Value.vstr "y")]]) "id" =
      some { field := "id", examples := [Value.vint 1] } :=
  ⟨c2_strict_duplicate_policy_aborts
      [[("id", Value.vint 1), ("v", Value.vstr "x")],
       [("id", Value.vint 1), ("v", Value.vstr "y")]] "id" ⟨Value.vint 1, by decide⟩,
   by decide⟩

/-- C3 (confirmed): the last-wins duplicate policy keeps, for every key
value, exactly the last record of the input carrying that key (in its
original position and order), drops every other record with that key,
reports the removed count through the log channel, and runs on the frame
that both the Script Sink and the Live Sink then consume — before type
inference, which is applied to the deduplicated frame in both paths. -/
theorem c3_last_wins_dedup (records : List Record) (j t f p now mode : String) (db : DB)
    (fails : String → Bool)
    (hc : (mkDataFrame records).columns.contains f = true) :
    ((prepared records (some f)).rows.Sublist (mkDataFrame records).rows) ∧
    ((prepared records (some f)).rows.Pairwise (fun a b =>
        ¬ cellVal (mkDataFrame records).columns f a =
          cellVal (mkDataFrame records).columns f b)) ∧
    (∀ v : Value, (prepared records (some f)).rows.filter
        (fun r => cellVal (mkDataFrame records).columns f r == v) =
      (((mkDataFrame records).rows.filter
        (fun r => cellVal (mkDataFrame records).columns f r == v)).getLast?).toList) ∧
    (((mkDataFrame records).rows.filter (fun r => 2 ≤ (mkDataFrame records).rows.countP
        (fun s => cellVal (mkDataFrame records).columns f s ==
                  cellVal (mkDataFrame records).columns f r))).isEmpty = false →
      ("[!] Cleaned: " ++ toString ((mkDataFrame records).rows.length -
          (prepared records (some f)).rows.length) ++ " duplicate rows removed.") ∈
        (process_data records j t false mode (some f) (some p) db fails now).logs) ∧
    ((process_data records j t false mode (some f) (some p) db fails now).script =
      some (generate_sql_script (prepared records (some f)) t mode (some f) now)) ∧
    ((process_data records j t true "nuke" (some f) none db fails now).db =
      (nukeRun records j t (some f) db).db) ∧
    ((nukeRun records j t (some f) db).db = some (live_nuke (prepared records (some f))
        (analyze_dataframe (prepared records (some f))) t (some f)).1) := by
  refine ⟨?_, prepared_pairwise records f, ?_, ?_, ?_, ?_, ?_⟩
  · rw [prepared_some_rows]
    exact dedupLastBy_sublist _ _
  · intro v
    rw [prepared_some_rows]
    exact dedupLastBy_filter _ v _
  · intro hdup
    have hx := dup_cleaned_log (mkDataFrame records) f hdup
    rw [prepared_some_rows]
    simp only [process_data, prepStage, hc, reduceIte]
    simp only [SyncResult.logs, List.mem_append]
    exact Or.inl (Or.inl (Or.inr hx))
  · exact (process_data_export_fields records j t mode false (some f) p db fails now
      (fun g hg => by cases hg; exact hc)).1
  · rw [process_data_live_nuke]
  · exact (nukeRun_fields records j t (some f) db (fun g hg => by cases hg; exact hc)).1

/-- C3 witness: the dedup properties applied to a concrete duplicated
input. -/
theorem c3_last_wins_dedup_witness :
    ((prepared [[("id", Value.vint 1), ("v", Value.vstr "x")],
                [("id", Value.vint 1), ("v", Value.vstr "y")]] (some "id")).rows.Sublist
      (mkDataFrame [[("id", Value.vint 1), ("v", Value.vstr "x")],
                    [("id", Value.vint 1), ("v", Value.vstr "y")]]).rows) ∧
    (("[!] Cleaned: " ++ toString ((mkDataFrame
          [[("id", Value.vint 1), ("v", Value.vstr "x")],
           [("id", Value.vint 1), ("v", Value.vstr "y")]]).rows.length -
        (prepared [[("id", Value.vint 1), ("v", Value.vstr "x")],
                   [("id", Value.vint 1), ("v", Value.vstr "y")]] (some "id")).rows.length) ++
        " duplicate rows removed.") ∈
      (process_data [[("id", Value.vint 1), ("v", Value.vstr "x")],
                     [("id", Value.vint 1), ("v", Value.vstr "y")]] "in.json" "t" false
        "upsert" (some "id") (some "out.sql") none (fun _ => false) "now").logs) ∧
    ((process_data [[("id", Value.vint 1), ("v", Value.vstr "x")],
                    [("id", Value.vint 1), ("v", Value.vstr "y")]] "in.json" "t" false
        "upsert" (some "id") (some "out.sql") none (fun _ => false) "now").script =
      some (generate_sql_script (prepared [[("id", Value.vint 1), ("v", Value.vstr "x")],
                    [("id", Value.vint 1), ("v", Value.vstr "y")]] (some "id")) "t" "upsert"
        (some "id") "now")) :=
  ⟨(c3_last_wins_dedup [[("id", Value.vint 1), ("v", Value.vstr "x")],
      [("id", Value.vint 1), ("v", Value.vstr "y")]] "in.json" "t" "id" "out.sql" "now"
      "upsert" none (fun _ => false) (by decide)).1,
   (c3_last_wins_dedup [[("id", Value.vint 1), ("v", Value.vstr "x")],
      [("id", Value.vint 1), ("v", Value.vstr "y")]] "in.json" "t" "id" "out.sql" "now"
      "upsert" none (fun _ => false) (by decide)).2.2.2.1 (by decide),
   (c3_last_wins_dedup [[("id", Value.vint 1), ("v", Value.vstr "x")],
      [("id", Value.vint 1), ("v", Value.vstr "y")]] "in.json" "t" "id" "out.sql" "now"
      "upsert" none (fun _ => false) (by decide)).2.2.2.2.1⟩

/-- C4 (corrected): the inferencer is total over the five types, with this
decision order: StructuredJSON when any of the first 100 non-null sampled
values is a nested object or array; else Integer when the column is
non-empty and every cell (nulls included) is an integer; else Decimal when
every cell is an integer, a float or a null with at least one numeric
cell; else Boolean when the column is non-empty and every cell is a
boolean; else Text, with an empty or all-null column inferring Text.
Unlike the original claim, a null cell blocks Integer and Boolean (the
pandas dtype is promoted), so integers mixed with nulls infer Decimal and
booleans mixed with nulls infer Text. -/
theorem c4_type_inference_amended (vs : List Value) :
    (inferColumnType vs = SqlAlchemyType.JSONB ∨
     inferColumnType vs = SqlAlchemyType.BigInteger ∨
     inferColumnType vs = SqlAlchemyType.Float ∨
     inferColumnType vs = SqlAlchemyType.Boolean ∨
     inferColumnType vs = SqlAlchemyType.String) ∧
    (inferColumnType vs = SqlAlchemyType.JSONB ↔
      ((pdDropna vs).take 100).any Value.isStructured = true) ∧
    (inferColumnType vs = SqlAlchemyType.BigInteger ↔
      (¬ ((pdDropna vs).take 100).any Value.isStructured = true ∧ vs ≠ [] ∧
       ∀ v ∈ vs, v.isInt = true)) ∧
    (inferColumnType vs = SqlAlchemyType.Float ↔
      (¬ ((pdDropna vs).take 100).any Value.isStructured = true ∧
       ¬ (vs ≠ [] ∧ ∀ v ∈ vs, v.isInt = true) ∧
       (∃ v ∈ vs, (v.isInt || v.isFloat) = true) ∧
       (∀ v ∈ vs, (v.isInt || v.isFloat || v.isNull) = true))) ∧
    (inferColumnType vs = SqlAlchemyType.Boolean ↔
      (¬ ((pdDropna vs).take 100).any Value.isStructured = true ∧
       ¬ (vs ≠ [] ∧ ∀ v ∈ vs, v.isInt = true) ∧
       ¬ ((∃ v ∈ vs, (v.isInt || v.isFloat) = true) ∧
          (∀ v ∈ vs, (v.isInt || v.isFloat || v.isNull) = true)) ∧
       vs ≠ [] ∧ ∀ v ∈ vs, v.isBool = true)) ∧
    ((∀ v ∈ vs, v.isNull = true) → inferColumnType vs = SqlAlchemyType.String) := by
  have hIff : (!vs.isEmpty && vs.all Value.isInt) = true ↔
      (vs ≠ [] ∧ ∀ v ∈ vs, v.isInt = true) := by
    rw [Bool.and_eq_true, List.all_eq_true]
    constructor
    · rintro ⟨h1, h2⟩
      refine ⟨?_, h2⟩
      intro hnil
      subst hnil
      simp at h1
    · rintro ⟨h1, h2⟩
      refine ⟨?_, h2⟩
      cases vs with
      | nil => exact absurd rfl h1
      | cons a l => rfl
  have hBff : (!vs.isEmpty && vs.all Value.isBool) = true ↔
      (vs ≠ [] ∧ ∀ v ∈ vs, v.isBool = true) := by
    rw [Bool.and_eq_true, List.all_eq_true]
    constructor
    · rintro ⟨h1, h2⟩
      refine ⟨?_, h2⟩
      intro hnil
      subst hnil
      simp at h1
    · rintro ⟨h1, h2⟩
      refine ⟨?_, h2⟩
      cases vs with
      | nil => exact absurd rfl h1
      | cons a l => rfl
  have hFff : (vs.any (fun v => v.isInt || v.isFloat) &&
      vs.all (fun v => v.isInt || v.isFloat || v.isNull)) = true ↔
      ((∃ v ∈ vs, (v.isInt || v.isFloat) = true) ∧
       (∀ v ∈ vs, (v.isInt || v.isFloat || v.isNull) = true)) := by
    rw [Bool.and_eq_true, List.any_eq_true, List.all_eq_true]
  rw [← hIff, ← hBff, ← hFff]
  refine ⟨?_, ?_, ?_, ?_, ?_, inferColumnType_all_null vs⟩ <;>
  · by_cases hs : ((pdDropna vs).take 100).any Value.isStructured = true <;>
    by_cases hi : (!vs.isEmpty && vs.all Value.isInt) = true <;>
    by_cases hf : (vs.any (fun v => v.isInt || v.isFloat) &&
      vs.all (fun v => v.isInt || v.isFloat || v.isNull)) = true <;>
    by_cases hb : (!vs.isEmpty && vs.all Value.isBool) = true <;>
    simp [inferColumnType, colDtype, hs, hi, hf, hb]

/-- C4 counterexample: a column whose non-null values are all integral but
that carries a null (a record missing the field) infers Decimal (Float),
not Integer — pandas promotes the column to float64 — refuting the claim
as stated. -/
theorem c4_counterexample :
    colValues (mkDataFrame [[("a", Value.vint 1)], []]) "a" =
      [Value.vint 1, Value.vnull] ∧
    (∀ v ∈ pdDropna [Value.vint 1, Value.vnull], v.isInt = true) ∧
    analyze_dataframe (mkDataFrame [[("a", Value.vint 1)], []]) =
      [("a", SqlAlchemyType.Float)] ∧
    SqlAlchemyType.Float ≠ SqlAlchemyType.BigInteger := by
  refine ⟨by decide, by decide, by decide, by decide⟩

/-- C4 witness: the amended characterization applied at concrete columns. -/
theorem c4_type_inference_amended_witness :
    inferColumnType [Value.vint 1, Value.vnull] = SqlAlchemyType.Float ∧
    inferColumnType [Value.vnull, Value.vnull] = SqlAlchemyType.String :=
  ⟨(c4_type_inference_amended [Value.vint 1, Value.vnull]).2.2.2.1.mpr
      ⟨by decide, by decide, ⟨Value.vint 1, by decide, by decide⟩, by decide⟩,
   (c4_type_inference_amended [Value.vnull, Value.vnull]).2.2.2.2.2 (by decide)⟩

/-- C5 (confirmed): when the chosen primary-key field is absent from the
union of fields of the input records, the engine fails with the fatal
field-not-found error (MissingFieldError) eagerly: whatever the mode, the
engine flag, the export path or the destination state, the destination is
returned unchanged and no script is rendered — the check precedes schema
inference and every sink operation. -/
theorem c5_missing_pk_fatal (records : List Record) (j t : String) (hE : Bool)
    (mode : String) (f : String) (ep : Option String) (db : DB) (fails : String → Bool)
    (now : String) (hc : (mkDataFrame records).columns.contains f = false) :
    (process_data records j t hE mode (some f) ep db fails now).err =
      some (.fieldNotFound f) ∧
    (process_data records j t hE mode (some f) ep db fails now).db = db ∧
    (process_data records j t hE mode (some f) ep db fails now).script = none := by
  simp only [process_data, prepStage, hc, Bool.false_eq_true, reduceIte]
  exact ⟨by trivial, by trivial, by trivial⟩

/-- C5 witness: a concrete record set without an id field, upserted on
id. -/
theorem c5_missing_pk_fatal_witness :
    (mkDataFrame [[("a", Value.vint 1)]]).columns.contains "id" = false ∧
    ((process_data [[("a", Value.vint 1)]] "in.json" "t" true "upsert" (some "id") none
        none (fun _ => false) "now").err = some (.fieldNotFound "id") ∧
     (process_data [[("a", Value.vint 1)]] "in.json" "t" true "upsert" (some "id") none
        none (fun _ => false) "now").db = none ∧
     (process_data [[("a", Value.vint 1)]] "in.json" "t" true "upsert" (some "id") none
        none (fun _ => false) "now").script = none) :=
  ⟨by decide,
   c5_missing_pk_fatal [[("a", Value.vint 1)]] "in.json" "t" true "upsert" "id" none
     none (fun _ => false) "now" (by decide)⟩

/-- C6 (confirmed): an Upsert-mode run against an existing destination
table that does not enforce a primary-key constraint on the configured
field aborts with the missing-constraint error (MissingConstraintError)
before schema reconciliation and before any destination write: the
destination table comes back exactly as it was and no script is
rendered. -/
theorem c6_missing_constraint_aborts (records : List Record) (j t f : String)
    (ts : TableState) (fails : String → Bool) (now : String)
    (hc : (mkDataFrame records).columns.contains f = true)
    (hpk : ts.pk.toList.contains f = false) :
    (process_data records j t true "upsert" (some f) none (some ts) fails now).err =
      some (.missingConstraint f) ∧
    (process_data records j t true "upsert" (some f) none (some ts) fails now).db =
      some ts ∧
    (process_data records j t true "upsert" (some f) none (some ts) fails now).script =
      none := by
  simp only [process_data, prepStage, hc, reduceIte]
  simp only [live_upsert_existing, hpk, Bool.not_false, reduceIte]
  exact ⟨by trivial, by trivial, by trivial⟩

/-- C6 witness: upserting on id into a table created without any primary
key aborts with the missing-constraint error and leaves the table as it
was. -/
theorem c6_missing_constraint_aborts_witness :
    (mkDataFrame [[("id", Value.vint 1)]]).columns.contains "id" = true ∧
    (TableState.pk { cols := [("id", SqlAlchemyType.BigInteger)], pk := none, serial := none, rows := [] }).toList.contains "id" = false ∧
    ((process_data [[("id", Value.vint 1)]] "in.json" "t" true "upsert" (some "id") none
        (some { cols := [("id", SqlAlchemyType.BigInteger)], pk := none, serial := none, rows := [] }) (fun _ => false) "now").err =
      some (.missingConstraint "id") ∧
     (process_data [[("id", Value.vint 1)]] "in.json" "t" true "upsert" (some "id") none
        (some { cols := [("id", SqlAlchemyType.BigInteger)], pk := none, serial := none, rows := [] }) (fun _ => false) "now").db =
      some { cols := [("id", SqlAlchemyType.BigInteger)], pk := none, serial := none, rows := [] } ∧
     (process_data [[("id", Value.vint 1)]] "in.json" "t" true "upsert" (some "id") none
        (some { cols := [("id", SqlAlchemyType.BigInteger)], pk := none, serial := none, rows := [] }) (fun _ => false) "now").script = none) :=
  ⟨by decide, by decide,
   c6_missing_constraint_aborts [[("id", Value.vint 1)]] "in.json" "t" "id"
     { cols := [("id", SqlAlchemyType.BigInteger)], pk := none, serial := none, rows := [] }
     (fun _ => false) "now" (by decide) (by decide)⟩

/-- C8 (corrected): a Nuke-mode rendering emits, in order, the three header
comment lines, one DROP TABLE IF EXISTS statement, one CREATE TABLE
statement listing exactly the inferred columns with the chosen key as
inline primary key, then one INSERT ... VALUES statement per batch, the
batches partitioning the prepared rows contiguously in input order with
each batch non-empty and of at most 100 records.  Unlike the original
claim, the identity column is synthesized only when no key was chosen AND
the data has no column named id: the serial flag of the CREATE statement
is exactly (pk == none && not (columns contains id)). -/
theorem c8_nuke_script_shape_amended (records : List Record) (t : String)
    (pk : Option String) (now : String) :
    generate_sql_lines (prepared records pk) t "nuke" pk now =
      ["-- Phoenix SQL Pro - Auto-generated Export",
       "-- Created: " ++ now,
       "-- Source: JSON\n"] ++
      ((script_stmts (prepared records pk) t "nuke" pk).map renderStmt).flatten ∧
    script_stmts (prepared records pk) t "nuke" pk =
      ScriptStmt.dropTable t ::
      ScriptStmt.createTable t (analyze_dataframe (prepared records pk)) pk
        (pk == none && !((prepared records pk).columns.contains "id")) ::
      (chunks 100 (prepared records pk).rows).map
        (fun b => ScriptStmt.insertValues t (prepared records pk).columns b
          ConflictClause.noClause) ∧
    (chunks 100 (prepared records pk).rows).flatten = (prepared records pk).rows ∧
    ∀ b ∈ chunks 100 (prepared records pk).rows, b ≠ [] ∧ b.length ≤ 100 := by
  refine ⟨rfl, script_stmts_nuke _ t pk (prepared_wf records pk), chunks_flatten 100 _,
    chunks_sizes 100 _ (by decide)⟩

/-- C8 counterexample: with no chosen key and an id column in the data the
CREATE statement carries neither a primary-key marker nor a synthesized
identity column — its rendered column list is the bare id column — refuting
the claim that a serial identity column appears whenever no key is given. -/
theorem c8_counterexample :
    script_stmts (prepared [[("id", Value.vint 1)]] none) "t" "nuke" none =
      [ScriptStmt.dropTable "t",
       ScriptStmt.createTable "t" [("id", SqlAlchemyType.BigInteger)] none false,
       ScriptStmt.insertValues "t" ["id"] [[Value.vint 1]] ConflictClause.noClause] ∧
    renderStmt (ScriptStmt.createTable "t" [("id", SqlAlchemyType.BigInteger)] none false) =
      ["CREATE TABLE " ++ dq "t" ++ " (", "    " ++ dq "id" ++ " BIGINT", ");\n"] := by
  exact ⟨by decide, by decide⟩

/-- C9 (corrected): in the rendered script, an Upsert whose incoming column
set is the key alone uses ON CONFLICT DO NOTHING, and replaying a
DO NOTHING insert never modifies a stored row (rows are only appended);
with at least one non-key incoming column the script updates exactly the
non-key incoming columns.  The live batch upsert, however, derives its
conflict action from the destination table columns after schema evolution,
not from the incoming columns: it chooses DO NOTHING only when the evolved
table has no non-key column, and a non-key table column listed in the
DO UPDATE SET but absent from the incoming column set is overwritten on
every conflicting row with NULL (the EXCLUDED value of an unsupplied
column). -/
theorem c9_key_only_upsert_amended (df : DataFrame) (t f : String) (hwf : WF df)
    (A : List (String × SqlAlchemyType)) (fails : String → Bool) (ts : TableState)
    (insCols setCols : List String) (vals : List Value) (rows : List (List Value))
    (ts2 : TableState) (i : Nat) (c : String) :
    (df.columns.filter (fun x => x ≠ f) = [] →
      script_stmts df t "upsert" (some f) =
        (chunks 100 df.rows).map (fun b =>
          ScriptStmt.insertValues t df.columns b (ConflictClause.doNothing f))) ∧
    (df.columns.filter (fun x => x ≠ f) ≠ [] →
      script_stmts df t "upsert" (some f) =
        (chunks 100 df.rows).map (fun b =>
          ScriptStmt.insertValues t df.columns b
            (ConflictClause.doUpdate f (df.columns.filter (fun x => x ≠ f))))) ∧
    (execInsert ts insCols rows (ConflictClause.doNothing f) = Except.ok ts2 →
      ∃ ext, ts2.rows = ts.rows ++ ext) ∧
    (ts.pk.toList.contains f = true →
      (live_upsert_existing df A t f fails ts).1 =
        some (runBatches df.columns
          (if !(((colNames (schemaEvolve fails A df ts).1).filter (fun x => x ≠ f)).isEmpty)
           then ConflictClause.doUpdate f
             ((colNames (schemaEvolve fails A df ts).1).filter (fun x => x ≠ f))
           else ConflictClause.doNothing f)
          df.rows.length (schemaEvolve fails A df ts).1 0 (chunks 500 df.rows)).1) ∧
    (ts.rows.findIdx? (fun r => keyVal ts f r ==
        keyVal ts f (buildRow ts insCols vals)) = some i →
      i < ts.rows.length →
      (ts.rows.getD i []).length = ts.cols.length →
      c ∈ colNames ts → setCols.contains c = true → c ∉ insCols →
      cellVal (colNames ts) c
        ((upsertRowStep f setCols insCols ts vals).rows.getD i []) = Value.vnull) := by
  refine ⟨?_, ?_, ?_, ?_, ?_⟩
  · intro hempty
    rw [script_stmts_upsert df t f hwf]
    simp only [hempty, List.isEmpty_nil, Bool.not_true, Bool.false_eq_true, reduceIte]
  · intro hne
    have hie : (df.columns.filter (fun x => x ≠ f)).isEmpty = false := by
      cases hb : (df.columns.filter (fun x => x ≠ f)).isEmpty with
      | false => rfl
      | true => exact absurd (List.isEmpty_iff.mp hb) hne
    rw [script_stmts_upsert df t f hwf]
    simp only [hie, Bool.not_false, eq_self_iff_true, if_true]
  · intro h3
    cases hall : insCols.all (fun x => (colNames ts).contains x) with
    | false =>
      rw [execInsert, hall] at h3
      simp at h3
    | true =>
      cases hpk : ts.pk with
      | none =>
        rw [execInsert, hall, hpk] at h3
        simp at h3
      | some g =>
        by_cases hg : g = f
        · subst hg
          rw [execInsert_doNothing ts insCols rows g hall hpk] at h3
          injection h3 with h3
          subst h3
          exact foldl_doNothing_rows_extend g insCols rows ts
        · rw [execInsert, hall, hpk] at h3
          simp [hg] at h3
  · intro h4
    exact (live_upsert_else_proj df A t f fails ts h4).1
  · intro hfind hi hlen hcmem hcset hcnotins
    have hrows : (upsertRowStep f setCols insCols ts vals).rows =
        ts.rows.set i ((ts.cols.zip (ts.rows.getD i [])).map (fun p =>
          if setCols.contains p.1.1
          then ((insCols.zip vals).lookup p.1.1).getD Value.vnull
          else p.2)) := by
      simp only [upsertRowStep, hfind]
    rw [hrows, getD_set_self ts.rows i _ hi]
    have := cellVal_merged setCols insCols vals c ts.cols (ts.rows.getD i []) hlen
      (by simpa [colNames] using hcmem) hcset
    rw [show colNames ts = ts.cols.map Prod.fst from rfl, this,
      lookup_zip_not_mem vals c insCols vals hcnotins]
    rfl

/-- C9 counterexample: a key-only upsert of id=1.  The rendered script uses
DO NOTHING, so replay leaves the stored row (1, the string x) untouched;
the live path takes the update-set from the table columns, issues DO UPDATE
SET on the extra column v, and overwrites x with NULL on the conflicting
row — the two sinks diverge and the live conflicting row is not left
untouched. -/
theorem c9_counterexample :
    script_stmts (mkDataFrame [[("id", Value.vint 1)]]) "t" "upsert" (some "id") =
      [ScriptStmt.insertValues "t" ["id"] [[Value.vint 1]]
        (ConflictClause.doNothing "id")] ∧
    (live_upsert_existing (mkDataFrame [[("id", Value.vint 1)]])
        [("id", SqlAlchemyType.BigInteger)] "t" "id" (fun _ => false)
        { cols := [("id", SqlAlchemyType.BigInteger), ("v", SqlAlchemyType.String)], pk := some "id", serial := none, rows := [[Value.vint 1, Value.vstr "x"]] }).1 =
      some { cols := [("id", SqlAlchemyType.BigInteger), ("v", SqlAlchemyType.String)], pk := some "id", serial := none, rows := [[Value.vint 1, Value.vnull]] } ∧
    Value.vnull ≠ Value.vstr "x" := by
  exact ⟨by decide, by decide, by decide⟩

/-- C9 witness: the amended statement instantiated at the key-only upsert
of id=1 against a table holding columns id and v. -/
theorem c9_key_only_upsert_amended_witness :
    script_stmts (mkDataFrame [[("id", Value.vint 1)]]) "t2" "upsert" (some "id") =
      (chunks 100 (mkDataFrame [[("id", Value.vint 1)]]).rows).map (fun b =>
        ScriptStmt.insertValues "t2" (mkDataFrame [[("id", Value.vint 1)]]).columns b
          (ConflictClause.doNothing "id")) ∧
    (∃ ext, ({ cols := [("id", SqlAlchemyType.BigInteger), ("v", SqlAlchemyType.String)], pk := some "id", serial := none, rows := [[Value.vint 1, Value.vstr "x"]] } : TableState).rows =
      [[Value.vint 1, Value.vstr "x"]] ++ ext) ∧
    cellVal ["id", "v"]
      "v" ((upsertRowStep "id" ["v"] ["id"]
        { cols := [("id", SqlAlchemyType.BigInteger), ("v", SqlAlchemyType.String)], pk := some "id", serial := none, rows := [[Value.vint 1, Value.vstr "x"]] }
        [Value.vint 1]).rows.getD 0 []) = Value.vnull := by
  have H := c9_key_only_upsert_amended (mkDataFrame [[("id", Value.vint 1)]]) "t2" "id"
    ⟨by decide, by decide⟩ [("id", SqlAlchemyType.BigInteger)] (fun _ => false)
    { cols := [("id", SqlAlchemyType.BigInteger), ("v", SqlAlchemyType.String)], pk := some "id", serial := none, rows := [[Value.vint 1, Value.vstr "x"]] }
    ["id"] ["v"] [Value.vint 1] [[Value.vint 1]]
    { cols := [("id", SqlAlchemyType.BigInteger), ("v", SqlAlchemyType.String)], pk := some "id", serial := none, rows := [[Value.vint 1, Value.vstr "x"]] }
    0 "v"
  exact ⟨H.1 (by decide),
    H.2.2.1 (by decide),
    H.2.2.2.2 (by decide) (by decide) (by decide) (by decide) (by decide) (by decide)⟩

/-- C10 (confirmed): a live-mode invocation (no export path, engine
present) whose mode string is none of nuke, append or upsert performs no
destination write at all — the destination and the absence of a script are
returned unchanged, no error is raised — and the run still ends by logging
the success line for that mode: mode is never validated, so an
unrecognized mode silently becomes a no-op that looks successful. -/
theorem c10_unrecognized_mode_noop (records : List Record) (j t : String)
    (mode : String) (pk : Option String) (db : DB) (fails : String → Bool) (now : String)
    (hn : (mode == "nuke") = false) (ha : (mode == "append") = false)
    (hu : (mode == "upsert") = false)
    (hv : ∀ g, pk = some g → (mkDataFrame records).columns.contains g = true) :
    (process_data records j t true mode pk none db fails now).err = none ∧
    (process_data records j t true mode pk none db fails now).db = db ∧
    (process_data records j t true mode pk none db fails now).script = none ∧
    (process_data records j t true mode pk none db fails now).logs.getLast? =
      some (successLine mode) := by
  cases pk with
  | none =>
    simp only [process_data, prepStage, hn, ha, hu, Bool.not_true, Bool.false_eq_true,
      reduceIte]
    refine ⟨by trivial, by trivial, by trivial, ?_⟩
    exact List.getLast?_concat _
  | some g =>
    have hc := hv g rfl
    simp only [process_data, prepStage, hc, hn, ha, hu, Bool.not_true, Bool.false_eq_true,
      reduceIte]
    refine ⟨by trivial, by trivial, by trivial, ?_⟩
    exact List.getLast?_concat _

/-- C10 witness: a frobnicate-mode run against an existing one-row table
leaves it untouched and reports success. -/
theorem c10_unrecognized_mode_noop_witness :
    ("frobnicate" == "nuke") = false ∧
    ("frobnicate" == "append") = false ∧
    ("frobnicate" == "upsert") = false ∧
    ((process_data [[("id", Value.vint 1)]] "in.json" "t" true "frobnicate" none none
        (some { cols := [("id", SqlAlchemyType.BigInteger)], pk := none, serial := none, rows := [[Value.vint 7]] }) (fun _ => false) "now").err = none ∧
     (process_data [[("id", Value.vint 1)]] "in.json" "t" true "frobnicate" none none
        (some { cols := [("id", SqlAlchemyType.BigInteger)], pk := none, serial := none, rows := [[Value.vint 7]] }) (fun _ => false) "now").db =
       some { cols := [("id", SqlAlchemyType.BigInteger)], pk := none, serial := none, rows := [[Value.vint 7]] } ∧
     (process_data [[("id", Value.vint 1)]] "in.json" "t" true "frobnicate" none none
        (some { cols := [("id", SqlAlchemyType.BigInteger)], pk := none, serial := none, rows := [[Value.vint 7]] }) (fun _ => false) "now").script = none ∧
     (process_data [[("id", Value.vint 1)]] "in.json" "t" true "frobnicate" none none
        (some { cols := [("id", SqlAlchemyType.BigInteger)], pk := none, serial := none, rows := [[Value.vint 7]] }) (fun _ => false) "now").logs.getLast? =
       some (successLine "frobnicate")) :=
  ⟨by decide, by decide, by decide,
   c10_unrecognized_mode_noop [[("id", Value.vint 1)]] "in.json" "t" "frobnicate" none
     (some { cols := [("id", SqlAlchemyType.BigInteger)], pk := none, serial := none, rows := [[Value.vint 7]] }) (fun _ => false) "now"
     (by decide) (by decide) (by decide) (fun g hg => Option.noConfusion hg)⟩

end Phoenix
